import Mathlib

/-!
# cppargs: a verification development for `argparse.h`

A shallow embedding of the conversion / dispatch / backtracking engine of
`src/argparse.h`.

* A C++ type that can appear as a template argument is described by a term of `Ty`;
  its values live in the universal value type `Val`.
* `struct convert<X>` (the static members `c` and `Stringify`) becomes the record
  `Converter`; every template specialisation of `convert` is a Lean function that
  builds the record of the specialised type from the records of its arguments, and
  `convert : Ty → Converter` performs the specialisation lookup.
* C++ exceptions are explicit: a call returns an `Outcome`, which is a value, a thrown
  `TraceException`, a thrown `char const*`, or undefined behaviour.
-/

namespace argparse

/-! ## Tokens, exceptions and outcomes -/

/-- Line 57: `using strings = std::vector<std::string>`. -/
abbrev strings := List String

/-- Line 60: `template<typename X> using converted = std::tuple<X, strings>`. -/
abbrev converted (X : Type) := X × strings

/-- Modelled from the spec: `exception.h` is not among the sources. Section 6 describes
the error-signalling primitive as a chainable, message-carrying failure object that can
wrap an inner failure with additional context without losing the original message
chain. The chain is kept outermost message first. -/
structure TraceException where
  chain : List String
  deriving DecidableEq, Repr

/-- The result of running a piece of the C++ code.

* `ok a`: the call returned `a`;
* `trace e`: a `TraceException` was thrown (by `EXCEPT` or `EXCEPT_CHAIN`);
* `cstr s`: a `char const*` was thrown (line 281, `throw "nopt"`);
* `undefined`: the call ran into undefined behaviour. The only source of it in
  `argparse.h` is a leaf converter handed an empty vector (`vec.begin()+1`, `vec[0]`).
  No handler is modelled as intercepting it: once reached, it is the outcome of the
  whole run. -/
inductive Outcome (α : Type) where
  | ok (a : α)
  | trace (e : TraceException)
  | cstr (s : String)
  | undefined
  deriving DecidableEq, Repr

namespace Outcome

/-- Sequencing of two calls: the second runs only when the first returned. -/
def bind {α β : Type} (x : Outcome α) (f : α → Outcome β) : Outcome β :=
  match x with
  | ok a => f a
  | trace e => trace e
  | cstr s => cstr s
  | undefined => undefined

instance : Monad Outcome where
  pure := ok
  bind := bind

/-- The call returned a value. -/
def returns {α : Type} : Outcome α → Bool
  | ok _ => true
  | _ => false

/-- The call ended by throwing an exception (of either kind). -/
def throws {α : Type} : Outcome α → Bool
  | trace _ => true
  | cstr _ => true
  | _ => false

end Outcome

/-- Modelled from the spec: the macro `EXCEPT(msg)` of `exception.h` (not among the
sources) raises a fresh `TraceException` carrying `msg`. -/
def EXCEPT {α : Type} (msg : String) : Outcome α :=
  .trace ⟨[msg]⟩

/-- Modelled from the spec: the macro `EXCEPT_CHAIN(e, msg)` of `exception.h` (not among
the sources) re-raises `e` wrapped with the additional context `msg`. -/
def EXCEPT_CHAIN {α : Type} (e : TraceException) (msg : String) : Outcome α :=
  .trace ⟨msg :: e.chain⟩

/-! ## `std::stoi` -/

/-- The characters `std::isspace` accepts in the "C" locale. -/
def isspace (ch : Char) : Bool :=
  ch = ' ' || ch = Char.ofNat 9 || ch = Char.ofNat 10 || ch = Char.ofNat 11
    || ch = Char.ofNat 12 || ch = Char.ofNat 13

/-- The value of a run of decimal digits, most significant first. -/
def digitsValue (ds : List Char) : Nat :=
  ds.foldl (fun acc d => 10 * acc + (d.toNat - 48)) 0

/-- `INT_MIN` and `INT_MAX` of a 32-bit `int`. -/
def INT_MIN : Int := -2147483648

def INT_MAX : Int := 2147483647

/-- The library function `std::stoi(str)` (base 10, no position output): leading white
space is skipped, an optional sign is read, then the longest run of decimal digits;
whatever follows the digits is ignored. `none` stands for the two exceptions it can
throw: `std::invalid_argument` when there is no digit to read, `std::out_of_range` when
the number does not fit an `int`. -/
def stoi (str : String) : Option Int :=
  let s := str.toList.dropWhile isspace
  let signed : Bool × List Char :=
    match s with
    | '-' :: t => (true, t)
    | '+' :: t => (false, t)
    | _ => (false, s)
  let ds := signed.2.takeWhile Char.isDigit
  if ds.isEmpty then none
  else
    let v : Int := if signed.1 then - (digitsValue ds : Int) else (digitsValue ds : Int)
    if INT_MIN ≤ v ∧ v ≤ INT_MAX then some v else none

/-! ## Types and values -/

/-- The integral types for which line 290-294 instantiate `convert_type`. -/
inductive IntTy where
  | uint32_t | uint64_t | uint16_t | int | long
  deriving DecidableEq, Repr

/-- The spelling `#TYPE` of the macro argument. -/
def IntTy.name : IntTy → String
  | .uint32_t => "uint32_t"
  | .uint64_t => "uint64_t"
  | .uint16_t => "uint16_t"
  | .int => "int"
  | .long => "long"

/-- The implicit conversion of the `int` returned by `std::stoi` to `TYPE`: unsigned
types reduce modulo `2^w`; `int` and `long` hold every `int`. -/
def IntTy.ofInt : IntTy → Int → Int
  | .uint32_t, n => n % 2 ^ 32
  | .uint64_t, n => n % 2 ^ 64
  | .uint16_t, n => n % 2 ^ 16
  | .int, n => n
  | .long, n => n

/-- Lines 21-25: the struct `_F_name` generated by `Flag(name, _full, _simple, _desc)`. -/
structure Flag where
  full : String
  simple : String
  desc : String
  deriving DecidableEq, Repr

/-- The C++ types that have a `convert` specialisation. Type packs `F, R...` are never
empty in the source, so they are kept as a head and a tail.

`Arg T P Ps` is a class declared by `Arg(name, P, Ps...)`, that is
`class name : public Argument_<_F_name, P, Ps...>`. -/
inductive Ty where
  | integral (TYPE : IntTy)
  | string
  | path
  | nullptr_t
  | optional (X : Ty)
  | tuple (F : Ty) (R : List Ty)
  | AnyOrder (F : Ty) (R : List Ty)
  | Arg (T : Flag) (P : Ty) (Ps : List Ty)

/-- Values of the types of `Ty`. An integral value is kept as the integer it denotes;
`Argument_` is an object of a class declared by `Arg`, with its members `parsed_` and
`args_`. -/
inductive Val where
  | int (n : Int)
  | str (s : String)
  | path (s : String)
  | nullptr
  | optional (o : Option Val)
  | tuple (vs : List Val)
  | AnyOrder (wrapped : List Val)
  | Argument_ (T : Flag) (parsed_ : List Val) (args_ : strings)

/-- An object of a class declared by `Arg` (lines 343-387), as `GroupParse` and
`ParseArgs` hand it out. -/
structure Argument where
  T : Flag
  parsed_ : List Val
  args_ : strings

/-- The object as a value of the conversion registry. -/
def Argument.toVal (a : Argument) : Val :=
  .Argument_ a.T a.parsed_ a.args_

/-- The members of `struct convert<X>`: the static functions `c` and `Stringify`,
together with the value-initialised `X` (what `X x;` holds for the class types and
tuples of the source). -/
structure Converter where
  c : strings → Outcome (converted Val)
  Stringify : String
  init : Val

/-- The leftover tokens of every successful conversion are a suffix of the input. -/
def Converter.Shrinks (X : Converter) : Prop :=
  ∀ vec v rem, X.c vec = .ok (v, rem) → rem <:+ vec

/-- `std::get<0>(x).wrapped` for a value of an `AnyOrder<...>` type (line 185). -/
def Val.wrapped : Val → List Val
  | .AnyOrder w => w
  | _ => []

/-! ## The conversion registry -/

/-- Lines 64-76: the specialisation generated by `convert_type(TYPE)`. The vector `rest`
is built before the `try`; with an empty `vec` the range `[begin()+1, end())` is
invalid. Whatever `std::stoi` throws is turned into a `TraceException`. -/
def convert_type (TYPE : IntTy) : Converter where
  c := fun vec =>
    match vec with
    | [] => .undefined
    | v0 :: rest =>
      match stoi v0 with
      | some n => .ok (.int (TYPE.ofInt n), rest)
      | none => EXCEPT ("Could not convert \"" ++ v0 ++ "\" to a " ++ TYPE.name)
  Stringify := TYPE.name
  init := .int 0

/-- Lines 94-104: `convert<std::string>`. -/
def convert_string : Converter where
  c := fun vec =>
    match vec with
    | [] => .undefined
    | v0 :: rest => .ok (.str v0, rest)
  Stringify := "string"
  init := .str ""

/-- Lines 106-116: `convert<fs::path>`; the path type is kept as the string it wraps. -/
def convert_path : Converter where
  c := fun vec =>
    match vec with
    | [] => .undefined
    | v0 :: rest => .ok (.path v0, rest)
  Stringify := "path"
  init := .path ""

/-- Lines 118-127: `convert<nullptr_t>`. -/
def convert_nullptr_t : Converter where
  c := fun vec => .ok (.nullptr, vec)
  Stringify := ""
  init := .nullptr

/-- Lines 129-149: `convert<std::optional<X>>`, from `convert<X>`. The handler is
`catch(TraceException _)`: it does not intercept a thrown `char const*`. -/
def convert_optional (X : Converter) : Converter where
  c := fun vec =>
    if vec.length = 0 then .ok (.optional none, vec)
    else
      match X.c vec with
      | .ok c => .ok (.optional (some c.1), c.2)
      | .trace _ => .ok (.optional none, vec)
      | .cstr s => .cstr s
      | .undefined => .undefined
  Stringify := "[" ++ X.Stringify ++ "]"
  init := .optional none

/-- Lines 390-403: `ShowType<T, Ts...>::NameTypes()`. -/
def ShowType.NameTypes : Converter → List Converter → String
  | T, [] => T.Stringify
  | T, T' :: Ts => T.Stringify ++ ", " ++ ShowType.NameTypes T' Ts

/-- The body of `convert<std::tuple<F, R...>>::c` (lines 154-162) and of
`convert<std::tuple<F>>::c` (lines 170-175), returning the components as a list. -/
def convert_tuple.c : Converter → List Converter → strings → Outcome (converted (List Val))
  | F, [], vec => do
    let f ← F.c vec
    pure ([f.1], f.2)
  | F, F' :: R, vec => do
    let first ← F.c vec
    let rest ← convert_tuple.c F' R first.2
    pure (first.1 :: rest.1, rest.2)

/-- Lines 151-179: `convert<std::tuple<F, R...>>` and `convert<std::tuple<F>>`. -/
def convert_tuple (F : Converter) (R : List Converter) : Converter where
  c := fun vec => do
    let all ← convert_tuple.c F R vec
    pure (.tuple all.1, all.2)
  Stringify := ShowType.NameTypes F R
  init := .tuple (F.init :: R.map Converter.init)

/-! ## `AnyOrder` -/

/-- Lines 202-220: `TMagic<F, R...>::back_cycle`, which takes a `tuple<R..., F>` to the
`tuple<F, R...>` made of its last component followed by all the others. -/
def back_cycle (inp : List Val) : List Val :=
  inp.getLast?.toList ++ inp.dropLast

/-- Lines 256-267: `convert<AnyOrder<F>>`, from `convert<F>`. -/
def convert_AnyOrder_single (F : Converter) : Converter where
  c := fun vec => do
    let converted ← F.c vec
    pure (.AnyOrder [converted.1], converted.2)
  Stringify := F.Stringify
  init := .AnyOrder [F.init]

/-- Lines 269-286: `convert<AnyOrder<std::optional<F>>>`, from `convert<F>`: an absent
optional is reported by `throw "nopt"`. -/
def convert_AnyOrder_optional (F : Converter) : Converter where
  c := fun vec => do
    let maybe ← (convert_optional F).c vec
    match maybe.1 with
    | .optional (some f_) => pure (.AnyOrder [.optional (some f_)], maybe.2)
    | _ => .cstr "nopt"
  Stringify := F.Stringify
  init := .AnyOrder [.optional none]

/-- The components of a value-initialised `AnyOrder<F, R...>`, from the one-type
converters `convert<AnyOrder<F>>`, ... of the pack. -/
def AnyOrder.initWrapped : List Converter → List Val
  | [] => []
  | T :: Ts => T.init.wrapped ++ AnyOrder.initWrapped Ts

/-- Lines 223-249: `convert<AnyOrder<F, R...>>::c_limited(vec, itrs)`. The arguments `F`
and `R` are the one-type converters `convert<AnyOrder<F>>`, `convert<AnyOrder<R>>...` of
the pack. With an empty `R` no `c_limited` exists: `convert<AnyOrder<F>>::c` is meant,
which is what the call `convert<AnyOrder<R...>>::c(restvec)` of line 236 resolves to for
a one-type pack; for a longer pack that call is `c_limited(restvec, 0)` (line 226).

The handler is `catch(char const *_)`. When `itrs <= elements` fails the handler does
nothing, and line 248 returns the value-initialised `ret` and the empty `res`. -/
def AnyOrder.c_limited : Converter → List Converter → strings → Nat → Outcome (converted Val)
  | F, [], vec, _ => F.c vec
  | F, F' :: R, vec, itrs =>
    let attempt : Outcome (converted Val) := do
      let first ← F.c vec
      let restvec := first.2
      let rest ← AnyOrder.c_limited F' R restvec 0
      pure (.AnyOrder (first.1.wrapped ++ rest.1.wrapped), rest.2)
    match attempt with
    | .cstr _ =>
      let elements := (F :: F' :: R).length
      if itrs ≤ elements then do
        let cycle ← AnyOrder.c_limited F' (R ++ [F]) vec (itrs + 1)
        pure (.AnyOrder (back_cycle cycle.1.wrapped), cycle.2)
      else .ok (.AnyOrder (AnyOrder.initWrapped (F :: F' :: R)), [])
    | o => o
termination_by _ R _ itrs => (R.length, R.length + 2 - itrs)
decreasing_by
  · simp_wf
    exact Prod.Lex.left _ _ (Nat.lt_succ_self _)
  · simp_wf
    rename_i h
    have h2 : itrs ≤ R.length + 2 := by simpa using h
    exact Prod.Lex.right _ (by omega)

/-- Lines 222-254: `convert<AnyOrder<F, R...>>` (and the one-type specialisations of lines
256-286 when `R` is empty). The function `c` works with the one-type converters
`convert<AnyOrder<F>>`, `convert<AnyOrder<R>>...` of the pack, given as `one` and `ones`;
`Stringify` is `ShowType<F, R...>::NameTypes()` (lines 251-253), which names the types of
the pack themselves, through `convert<F>` and `convert<R>...`, given as `F` and `R`. For a
pack of one type the name is that of the one-type specialisation (lines 264-266 and
283-285). -/
def convert_AnyOrder (one : Converter) (ones : List Converter) (F : Converter)
    (R : List Converter) : Converter where
  c := fun vec => AnyOrder.c_limited one ones vec 0
  Stringify :=
    match R with
    | [] => one.Stringify
    | _ :: _ => ShowType.NameTypes F R
  init := .AnyOrder (AnyOrder.initWrapped (one :: ones))

/-! ## The sequence parser and `Argument_` -/

/-- Lines 299-330: `_parser_<F, R...>::parse` and the base case `_parser_<F>::parse`.
Only the recursive case tests for an empty `args` and wraps what `convert<F>::c`
throws; the base case calls the converter directly. -/
def _parser_.parse : Converter → List Converter → strings → Outcome (converted (List Val))
  | F, [], args => do
    let c ← F.c args
    pure ([c.1], c.2)
  | F, F' :: R, args =>
    if args.length = 0 then EXCEPT "Missing arguments"
    else
      match F.c args with
      | .trace e => EXCEPT_CHAIN e ("Could not convert type " ++ F.Stringify)
      | .cstr _ => EXCEPT ("Could not convert type " ++ F.Stringify)
      | .undefined => .undefined
      | .ok c => do
        let rest ← _parser_.parse F' R c.2
        pure (c.1 :: rest.1, rest.2)

/-- Lines 348-365: `Argument_<T, P...>::parse`, returning the object after the call
(`parsed_` and `args_` are assigned only on success). The handler is
`catch(TraceException err)`. -/
def Argument_.parse (T : Flag) (P : Converter) (Ps : List Converter) (args : strings) :
    Outcome Argument :=
  match args with
  | [] => EXCEPT "Could not parse empty flags"
  | a0 :: rest =>
    if a0 = T.full ∨ a0 = T.simple then
      match _parser_.parse P Ps rest with
      | .ok x => .ok ⟨T, x.1, x.2⟩
      | .trace err => EXCEPT_CHAIN err ("Parsing flag " ++ T.full ++ " failed.")
      | .cstr s => .cstr s
      | .undefined => .undefined
    else EXCEPT ("Could not parse flag: " ++ a0)

/-- Lines 373-377: `Argument_::EnsureNoRemainingArguments`. -/
def Argument.EnsureNoRemainingArguments (a : Argument) : Outcome Unit :=
  match a.args_ with
  | [] => .ok ()
  | a0 :: _ => EXCEPT ("Argument " ++ a0 ++ " not parsed.")

/-- Lines 82-92: the primary template `convert<X>`, for `X` a class declared by `Arg`:
`X argparser; argparser.parse(vec); return (argparser, argparser.args_)`. -/
def convert_default (T : Flag) (P : Converter) (Ps : List Converter) : Converter where
  c := fun vec => do
    let argparser ← Argument_.parse T P Ps vec
    pure (argparser.toVal, argparser.args_)
  Stringify := T.full
  init := .Argument_ T (P.init :: Ps.map Converter.init) []

/-! ## Specialisation lookup -/

mutual
/-- The record `convert<X>` of the type `X`: the most specialised of the templates of
lines 64-294 that matches `X`. -/
def convert : Ty → Converter
  | .integral TYPE => convert_type TYPE
  | .string => convert_string
  | .path => convert_path
  | .nullptr_t => convert_nullptr_t
  | .optional X => convert_optional (convert X)
  | .tuple F R => convert_tuple (convert F) (convertPack R)
  | .AnyOrder (.optional F) R =>
    convert_AnyOrder (convert_AnyOrder_optional (convert F)) (convertAnyOrderPack R)
      (convert_optional (convert F)) (convertPack R)
  | .AnyOrder F R =>
    convert_AnyOrder (convert_AnyOrder_single (convert F)) (convertAnyOrderPack R)
      (convert F) (convertPack R)
  | .Arg T P Ps => convert_default T (convert P) (convertPack Ps)
/-- The records `convert<R>...` of a pack. -/
def convertPack : List Ty → List Converter
  | [] => []
  | T :: Ts => convert T :: convertPack Ts
/-- The records `convert<AnyOrder<R>>...` of the one-type `AnyOrder`s over a pack;
`AnyOrder<std::optional<F>>` has a specialisation of its own. -/
def convertAnyOrderPack : List Ty → List Converter
  | [] => []
  | .optional F :: Ts => convert_AnyOrder_optional (convert F) :: convertAnyOrderPack Ts
  | T :: Ts => convert_AnyOrder_single (convert T) :: convertAnyOrderPack Ts
end

/-- The sequence parser `_parser_<F, R...>::parse` for a declared sequence of types. -/
def Ty.parseSequence (F : Ty) (R : List Ty) (args : strings) :
    Outcome (converted (List Val)) :=
  _parser_.parse (convert F) (convertPack R) args

/-! ## Candidate groups -/

/-- A class declared by `Flag(name, ...)` and `Arg(name, P, Ps...)`. -/
structure ArgClass where
  T : Flag
  P : Ty
  Ps : List Ty

/-- The member function `parse` of the class: `Argument_<_F_name, P, Ps...>::parse`. -/
def ArgClass.parse (A : ArgClass) (args : strings) : Outcome Argument :=
  Argument_.parse A.T (convert A.P) (convertPack A.Ps) args

/-- The class as a value type (a nested group). -/
def ArgClass.toTy (A : ArgClass) : Ty :=
  .Arg A.T A.P A.Ps

/-- Lines 406-430: `GroupParse<T, Ts...>::parse` and the one-candidate case
`GroupParse<T>::parse`. Both handlers of the recursive case (`catch(std::string err)`
and `catch(...)`) go on to the remaining candidates; nothing in `argparse.h` throws a
`std::string`, so the first, which also prints, never runs. -/
def GroupParse.parse : ArgClass → List ArgClass → strings → Outcome Argument
  | T, [], args => T.parse args
  | T, T' :: Ts, args =>
    match T.parse args with
    | .ok group => .ok group
    | .trace _ => GroupParse.parse T' Ts args
    | .cstr _ => GroupParse.parse T' Ts args
    | .undefined => .undefined

/-- Lines 452-459: `ParseArgs<Args...>(argc, argv)`; `argv` is the list of the `argc`
strings `argv[0], ..., argv[argc-1]`. With `argc = 0` the range `[argv+1, argv+argc)` is
invalid. -/
def ParseArgs (T : ArgClass) (Ts : List ArgClass) (argv : strings) : Outcome Argument :=
  match argv with
  | [] => .undefined
  | _ :: arguments => do
    let result ← GroupParse.parse T Ts arguments
    result.EnsureNoRemainingArguments
    pure result

/-! ## Example declarations -/

/-- The class declared by `Flag(name, full, simple, desc); Arg(name, std::string)`. -/
def oneString (T : Flag) : ArgClass :=
  ⟨T, .string, []⟩

/-- The record `convert<AnyOrder<std::optional<name>>>` for such a class. -/
def optionalGroup (T : Flag) : Converter :=
  convert_AnyOrder_optional (convert (oneString T).toTy)

/-- The record `convert<AnyOrder<name>>` for such a class. -/
def plainGroup (T : Flag) : Converter :=
  convert_AnyOrder_single (convert (oneString T).toTy)

/-- The declaration `Flag(A, "--a", "-a", "first"); Arg(A, std::string)`. -/
def groupA : ArgClass := oneString ⟨"--a", "-a", "first"⟩

/-- The declaration `Flag(B, "--b", "-b", "second"); Arg(B, std::string)`. -/
def groupB : ArgClass := oneString ⟨"--b", "-b", "second"⟩

/-- The declaration `Flag(C, "--c", "-c", "third"); Arg(C, std::string)`. -/
def groupC : ArgClass := oneString ⟨"--c", "-c", "third"⟩

/-- The declaration `Flag(XString, "--x", "-x", "a string"); Arg(XString, std::string)`. -/
def xString : ArgClass := oneString ⟨"--x", "-x", "a string"⟩

/-- The declaration `Flag(XPath, "--x", "-x", "a path"); Arg(XPath, fs::path)`. -/
def xPath : ArgClass := ⟨⟨"--x", "-x", "a path"⟩, .path, []⟩

/-- The declaration `Arg(XFourStrings, std::string, std::string, std::string, std::string)`
with the flag `--x`. -/
def xFourStrings : ArgClass := ⟨⟨"--x", "-x", "four strings"⟩, .string, [.string, .string, .string]⟩

/-- The declaration `Arg(XIntString, int, std::string)` with the flag `--x`. -/
def xIntString : ArgClass := ⟨⟨"--x", "-x", "an int and a string"⟩, .integral .int, [.string]⟩

/-- The declaration `Arg(XAnyOrderOptionalInt, AnyOrder<std::optional<int>>)` with the flag
`--x`. -/
def xAnyOrderOptionalInt : ArgClass :=
  ⟨⟨"--x", "-x", "an optional int"⟩, .AnyOrder (.optional (.integral .int)) [], []⟩

/-- The declaration `Arg(XTwoStrings, std::string, std::string)` with the flag `--x`. -/
def xTwoStrings : ArgClass := ⟨⟨"--x", "-x", "two strings"⟩, .string, [.string]⟩

/-! ## The digits `std::stoi` reads -/

/-- The run of decimal digits `std::stoi` reads from a token: the digits that follow the
leading white space and the optional sign. It is empty exactly when `std::stoi` throws
`std::invalid_argument`. -/
def numeralPrefix (str : String) : List Char :=
  let s := str.toList.dropWhile isspace
  let unsigned : List Char :=
    match s with
    | '-' :: t => t
    | '+' :: t => t
    | _ => s
  unsigned.takeWhile Char.isDigit

/-! ## The search of `c_limited`, observed -/

/-- Lines 234-238: the body of the `try` block of `c_limited`, one left-to-right parse
attempt on the pack `F, F', R...` in its current rotation. -/
def AnyOrder.attempt (F F' : Converter) (R : List Converter) (vec : strings) :
    Outcome (converted Val) := do
  let first ← F.c vec
  let restvec := first.2
  let rest ← AnyOrder.c_limited F' R restvec 0
  pure (.AnyOrder (first.1.wrapped ++ rest.1.wrapped), rest.2)

/-- The number of parse attempts (executions of the `try` block) made by the chain of
calls `c_limited(vec, itrs)`, `c_limited(vec, itrs + 1)`, ... on the successive rotations
of the pack: the control flow of lines 229-249, counting instead of converting. A
one-type pack has no `c_limited`, hence no such attempt. -/
def AnyOrder.attempts : Converter → List Converter → strings → Nat → Nat
  | _, [], _, _ => 0
  | F, F' :: R, vec, itrs =>
    match AnyOrder.attempt F F' R vec with
    | .cstr _ =>
      let elements := (F :: F' :: R).length
      if itrs ≤ elements then AnyOrder.attempts F' (R ++ [F]) vec (itrs + 1) + 1
      else 1
    | _ => 1
termination_by _ R _ itrs => R.length + 2 - itrs
decreasing_by
  simp_wf
  rename_i h
  have h2 : itrs ≤ R.length + 2 := by simpa using h
  omega

/-- The attempt that ends the chain of calls `c_limited(vec, itrs)`, ... when that attempt
returns: the number of rotations made before it, the pack in the rotation it was made
on, and the components and remaining tokens it produced, in the order of that rotated
pack (before any `back_cycle`). It is `none` when the chain ends otherwise (an exception
other than `char const*`, or the rotations used up). -/
def AnyOrder.found : Converter → List Converter → strings → Nat →
    Option (Nat × List Converter × List Val × strings)
  | _, [], _, _ => none
  | F, F' :: R, vec, itrs =>
    match AnyOrder.attempt F F' R vec with
    | .ok x => some (0, F :: F' :: R, x.1.wrapped, x.2)
    | .cstr _ =>
      let elements := (F :: F' :: R).length
      if itrs ≤ elements then
        (AnyOrder.found F' (R ++ [F]) vec (itrs + 1)).map fun r => (r.1 + 1, r.2)
      else none
    | _ => none
termination_by _ R _ itrs => R.length + 2 - itrs
decreasing_by
  simp_wf
  rename_i h
  have h2 : itrs ≤ R.length + 2 := by simpa using h
  omega

/-! ## The help renderer -/

/-- Lines 367-371: `Argument_<T, P...>::DisplayHelp`, as the text it appends to
`std::cout` (`std::endl` writes a line feed). -/
def Argument_.DisplayHelp (T : Flag) (P : Converter) (Ps : List Converter)
    (cout : String) : String :=
  cout ++ T.full ++ ", " ++ T.simple ++ " " ++ ShowType.NameTypes P Ps ++ "\n"
    ++ T.desc ++ "\n" ++ "\n"

/-- The member function `DisplayHelp` of a class declared by `Arg`. -/
def ArgClass.DisplayHelp (A : ArgClass) (cout : String) : String :=
  Argument_.DisplayHelp A.T (convert A.P) (convertPack A.Ps) cout

/-- Lines 432-442: `PrintHelp<T, Ts...>::PrintTypeHelp` and the one-class case. -/
def PrintHelp.PrintTypeHelp : ArgClass → List ArgClass → String → String
  | T, [], cout => T.DisplayHelp cout
  | T, T' :: Ts, cout => PrintHelp.PrintTypeHelp T' Ts (T.DisplayHelp cout)

/-- Lines 461-465: the entry point `DisplayHelp<Types...>()`. -/
def DisplayHelp (T : ArgClass) (Ts : List ArgClass) (cout : String) : String :=
  PrintHelp.PrintTypeHelp T Ts cout

/-- The declaration `Arg(YAnyOrder, AnyOrder<std::optional<int>, std::string>)` with the
flag `--y`. -/
def yAnyOrder : ArgClass :=
  ⟨⟨"--y", "-y", "an int and a string in any order"⟩,
    .AnyOrder (.optional (.integral .int)) [.string], []⟩

/-- The declaration `Arg(ZMixed, fs::path, std::optional<uint16_t>,
std::tuple<long, uint64_t>, A, AnyOrder<uint32_t>, nullptr_t)` with the flag `--z`, where
`A` is the class of `groupA`. -/
def zMixed : ArgClass :=
  ⟨⟨"--z", "-z", "one of each"⟩, .path,
    [.optional (.integral .uint16_t), .tuple (.integral .long) [.integral .uint64_t],
      groupA.toTy, .AnyOrder (.integral .uint32_t) [], .nullptr_t]⟩

/-- The text the specification of the help renderer prescribes for one group: the line
`<full>, <short> <type list>`, the description line and one blank line, where the type
list is made of the display names of the declared value types, in declared order,
joined by `", "`. -/
def ArgClass.helpText (A : ArgClass) : String :=
  A.T.full ++ ", " ++ A.T.simple ++ " "
    ++ ", ".intercalate ((convert A.P :: convertPack A.Ps).map Converter.Stringify) ++ "\n"
    ++ A.T.desc ++ "\n" ++ "\n"

/-! ## Outcomes: sequencing lemmas -/

@[simp] theorem Outcome.pure_eq_ok {α : Type} (a : α) : (pure a : Outcome α) = .ok a := rfl

@[simp] theorem Outcome.ok_bind {α β : Type} (a : α) (f : α → Outcome β) :
    (Outcome.ok a >>= f) = f a := rfl

@[simp] theorem Outcome.trace_bind {α β : Type} (e : TraceException) (f : α → Outcome β) :
    (Outcome.trace e >>= f) = .trace e := rfl

@[simp] theorem Outcome.cstr_bind {α β : Type} (s : String) (f : α → Outcome β) :
    (Outcome.cstr s >>= f) = .cstr s := rfl

@[simp] theorem Outcome.undefined_bind {α β : Type} (f : α → Outcome β) :
    (Outcome.undefined >>= f) = .undefined := rfl

theorem Outcome.bind_eq_ok {α β : Type} {x : Outcome α} {f : α → Outcome β} {b : β} :
    (x >>= f) = .ok b ↔ ∃ a, x = .ok a ∧ f a = .ok b := by
  cases x <;> simp


/-! ## Leftover tokens are a suffix of the input -/

theorem convert_type_shrinks (TYPE : IntTy) : (convert_type TYPE).Shrinks := by
  intro vec v rem h
  cases vec with
  | nil => simp [convert_type] at h
  | cons v0 rest =>
    simp only [convert_type] at h
    cases hs : stoi v0 with
    | none => simp [hs, EXCEPT] at h
    | some n =>
      simp only [hs, Outcome.ok.injEq, Prod.mk.injEq] at h
      exact h.2 ▸ List.suffix_cons v0 rest

theorem convert_string_shrinks : convert_string.Shrinks := by
  intro vec v rem h
  cases vec with
  | nil => simp [convert_string] at h
  | cons v0 rest =>
    simp only [convert_string, Outcome.ok.injEq, Prod.mk.injEq] at h
    exact h.2 ▸ List.suffix_cons v0 rest

theorem convert_path_shrinks : convert_path.Shrinks := by
  intro vec v rem h
  cases vec with
  | nil => simp [convert_path] at h
  | cons v0 rest =>
    simp only [convert_path, Outcome.ok.injEq, Prod.mk.injEq] at h
    exact h.2 ▸ List.suffix_cons v0 rest

theorem convert_nullptr_t_shrinks : convert_nullptr_t.Shrinks := by
  intro vec v rem h
  simp only [convert_nullptr_t, Outcome.ok.injEq, Prod.mk.injEq] at h
  exact h.2 ▸ List.suffix_refl vec

theorem convert_optional_shrinks {X : Converter} (hX : X.Shrinks) :
    (convert_optional X).Shrinks := by
  intro vec v rem h
  simp only [convert_optional] at h
  split at h
  · simp only [Outcome.ok.injEq, Prod.mk.injEq] at h
    exact h.2 ▸ List.suffix_refl vec
  · split at h
    · rename_i c hc
      simp only [Outcome.ok.injEq, Prod.mk.injEq] at h
      exact h.2 ▸ hX vec c.1 c.2 hc
    · simp only [Outcome.ok.injEq, Prod.mk.injEq] at h
      exact h.2 ▸ List.suffix_refl vec
    · simp at h
    · simp at h

theorem convert_tuple_c_shrinks (F : Converter) (R : List Converter)
    (hF : F.Shrinks) (hR : ∀ X ∈ R, X.Shrinks) (vec : strings) (vs : List Val)
    (rem : strings) (h : convert_tuple.c F R vec = .ok (vs, rem)) : rem <:+ vec := by
  induction R generalizing F vec vs rem with
  | nil =>
    simp only [convert_tuple.c, Outcome.bind_eq_ok, Outcome.pure_eq_ok, Outcome.ok.injEq,
      Prod.mk.injEq] at h
    obtain ⟨f, hf, -, rfl⟩ := h
    exact hF vec f.1 f.2 hf
  | cons F' R ih =>
    simp only [convert_tuple.c, Outcome.bind_eq_ok, Outcome.pure_eq_ok, Outcome.ok.injEq,
      Prod.mk.injEq] at h
    obtain ⟨first, hfirst, rest, hrest, -, rfl⟩ := h
    have h1 := hF vec first.1 first.2 hfirst
    have h2 := ih F' (hR F' (List.mem_cons_self _ _))
      (fun X hX => hR X (List.mem_cons_of_mem _ hX)) first.2 rest.1 rest.2 hrest
    exact h2.trans h1

theorem convert_tuple_shrinks {F : Converter} {R : List Converter}
    (hF : F.Shrinks) (hR : ∀ X ∈ R, X.Shrinks) : (convert_tuple F R).Shrinks := by
  intro vec v rem h
  simp only [convert_tuple, Outcome.bind_eq_ok, Outcome.pure_eq_ok, Outcome.ok.injEq,
    Prod.mk.injEq] at h
  obtain ⟨a, ha, -, rfl⟩ := h
  exact convert_tuple_c_shrinks F R hF hR vec a.1 a.2 ha

theorem convert_AnyOrder_single_shrinks {F : Converter} (hF : F.Shrinks) :
    (convert_AnyOrder_single F).Shrinks := by
  intro vec v rem h
  simp only [convert_AnyOrder_single, Outcome.bind_eq_ok, Outcome.pure_eq_ok, Outcome.ok.injEq,
    Prod.mk.injEq] at h
  obtain ⟨a, ha, -, rfl⟩ := h
  exact hF vec a.1 a.2 ha

theorem convert_AnyOrder_optional_shrinks {F : Converter} (hF : (convert_optional F).Shrinks) :
    (convert_AnyOrder_optional F).Shrinks := by
  intro vec v rem h
  simp only [convert_AnyOrder_optional, Outcome.bind_eq_ok] at h
  obtain ⟨maybe, hm, h⟩ := h
  have hs := hF vec maybe.1 maybe.2 hm
  split at h
  · simp only [Outcome.pure_eq_ok, Outcome.ok.injEq, Prod.mk.injEq] at h
    exact h.2 ▸ hs
  · simp at h

theorem c_limited_shrinks (F : Converter) (R : List Converter) (vec : strings) (itrs : Nat) :
    (∀ X ∈ F :: R, X.Shrinks) →
      ∀ v rem, AnyOrder.c_limited F R vec itrs = .ok (v, rem) → rem <:+ vec := by
  induction F, R, vec, itrs using AnyOrder.c_limited.induct with
  | case1 F vec itrs =>
    intro hall v rem h
    rw [AnyOrder.c_limited] at h
    exact hall F (List.mem_cons_self _ _) vec v rem h
  | case2 F F' R vec itrs attempt s hs elements hle ih1 ih2 =>
    intro hall v rem h
    rw [AnyOrder.c_limited] at h
    simp only [] at h
    rw [show (do
      let first ← F.c vec
      let restvec : strings := first.2
      let rest ← AnyOrder.c_limited F' R restvec 0
      pure (Val.AnyOrder (first.1.wrapped ++ rest.1.wrapped), rest.2)) = Outcome.cstr s from hs] at h
    simp only [if_pos hle, Outcome.bind_eq_ok, Outcome.pure_eq_ok, Outcome.ok.injEq,
      Prod.mk.injEq] at h
    obtain ⟨cycle, hc, -, rfl⟩ := h
    refine ih2 ?_ cycle.1 cycle.2 hc
    intro X hX
    apply hall
    simp only [List.mem_cons, List.mem_append, List.mem_singleton] at hX ⊢
    tauto
  | case3 F F' R vec itrs attempt s hs elements hle ih1 =>
    intro hall v rem h
    rw [AnyOrder.c_limited] at h
    simp only [] at h
    rw [show (do
      let first ← F.c vec
      let restvec : strings := first.2
      let rest ← AnyOrder.c_limited F' R restvec 0
      pure (Val.AnyOrder (first.1.wrapped ++ rest.1.wrapped), rest.2)) = Outcome.cstr s from hs] at h
    simp only [if_neg hle, Outcome.ok.injEq, Prod.mk.injEq] at h
    exact h.2 ▸ List.nil_suffix
  | case4 F F' R vec itrs attempt hne ih1 =>
    intro hall v rem h
    rw [AnyOrder.c_limited] at h
    simp only [] at h
    simp only [Outcome.bind_eq_ok, Outcome.pure_eq_ok, Outcome.ok.injEq, Prod.mk.injEq] at h
    obtain ⟨first, hfirst, rest, hrest, -, rfl⟩ := h
    have h1 := hall F (List.mem_cons_self _ _) vec first.1 first.2 hfirst
    have h2 := ih1 first (fun X hX => hall X (List.mem_cons_of_mem _ hX)) rest.1 rest.2 hrest
    exact h2.trans h1

theorem convert_AnyOrder_shrinks {F : Converter} {R : List Converter} (E : Converter)
    (Es : List Converter) (hall : ∀ X ∈ F :: R, X.Shrinks) :
    (convert_AnyOrder F R E Es).Shrinks := by
  intro vec v rem h
  exact c_limited_shrinks F R vec 0 hall v rem h

theorem parser_parse_shrinks (F : Converter) (R : List Converter)
    (hF : F.Shrinks) (hR : ∀ X ∈ R, X.Shrinks) (args : strings) (vs : List Val)
    (rem : strings) (h : _parser_.parse F R args = .ok (vs, rem)) : rem <:+ args := by
  induction R generalizing F args vs rem with
  | nil =>
    simp only [_parser_.parse, Outcome.bind_eq_ok, Outcome.pure_eq_ok, Outcome.ok.injEq,
      Prod.mk.injEq] at h
    obtain ⟨c, hc, -, rfl⟩ := h
    exact hF args c.1 c.2 hc
  | cons F' R ih =>
    simp only [_parser_.parse] at h
    split at h
    · simp [EXCEPT] at h
    · split at h
      · simp [EXCEPT_CHAIN] at h
      · simp [EXCEPT] at h
      · simp at h
      · rename_i c hc
        simp only [Outcome.bind_eq_ok, Outcome.pure_eq_ok, Outcome.ok.injEq,
          Prod.mk.injEq] at h
        obtain ⟨rest, hrest, -, rfl⟩ := h
        have h1 := hF args c.1 c.2 hc
        have h2 := ih F' (hR F' (List.mem_cons_self _ _))
          (fun X hX => hR X (List.mem_cons_of_mem _ hX)) c.2 rest.1 rest.2 hrest
        exact h2.trans h1

theorem Argument_parse_shrinks (T : Flag) (P : Converter) (Ps : List Converter)
    (hP : P.Shrinks) (hPs : ∀ X ∈ Ps, X.Shrinks) (args : strings) (a : Argument)
    (h : Argument_.parse T P Ps args = .ok a) : a.args_ <:+ args := by
  cases args with
  | nil => simp [Argument_.parse, EXCEPT] at h
  | cons a0 rest =>
    simp only [Argument_.parse] at h
    split at h
    · split at h
      · rename_i x hx
        simp only [Outcome.ok.injEq] at h
        subst h
        exact (parser_parse_shrinks P Ps hP hPs rest x.1 x.2 hx).trans (List.suffix_cons a0 rest)
      · simp [EXCEPT_CHAIN] at h
      · simp at h
      · simp at h
    · simp [EXCEPT] at h

theorem convert_default_shrinks {T : Flag} {P : Converter} {Ps : List Converter}
    (hP : P.Shrinks) (hPs : ∀ X ∈ Ps, X.Shrinks) : (convert_default T P Ps).Shrinks := by
  intro vec v rem h
  simp only [convert_default, Outcome.bind_eq_ok, Outcome.pure_eq_ok, Outcome.ok.injEq,
    Prod.mk.injEq] at h
  obtain ⟨a, ha, -, rfl⟩ := h
  exact Argument_parse_shrinks T P Ps hP hPs vec a ha

mutual
theorem convert_shrinks : ∀ T : Ty, (convert T).Shrinks
  | .integral TYPE => by rw [convert]; exact convert_type_shrinks TYPE
  | .string => by rw [convert]; exact convert_string_shrinks
  | .path => by rw [convert]; exact convert_path_shrinks
  | .nullptr_t => by rw [convert]; exact convert_nullptr_t_shrinks
  | .optional X => by rw [convert]; exact convert_optional_shrinks (convert_shrinks X)
  | .tuple F R => by
    rw [convert]; exact convert_tuple_shrinks (convert_shrinks F) (convertPack_shrinks R)
  | .AnyOrder F R => by
    have hR := convertAnyOrderPack_shrinks R
    have hF := convert_shrinks F
    cases F <;> simp only [convert] <;>
      exact convert_AnyOrder_shrinks _ _ (by
        intro X hX
        rcases List.mem_cons.1 hX with rfl | hX
        · first
          | exact convert_AnyOrder_single_shrinks hF
          | exact convert_AnyOrder_optional_shrinks (by simpa only [convert] using hF)
        · exact hR X hX)
  | .Arg T P Ps => by
    rw [convert]; exact convert_default_shrinks (convert_shrinks P) (convertPack_shrinks Ps)
theorem convertPack_shrinks : ∀ R : List Ty, ∀ X ∈ convertPack R, X.Shrinks
  | [] => by simp [convertPack]
  | T :: Ts => by
    intro X hX
    rw [convertPack] at hX
    rcases List.mem_cons.1 hX with rfl | hX
    · exact convert_shrinks T
    · exact convertPack_shrinks Ts X hX
theorem convertAnyOrderPack_shrinks : ∀ R : List Ty, ∀ X ∈ convertAnyOrderPack R, X.Shrinks
  | [] => by simp [convertAnyOrderPack]
  | T :: Ts => by
    intro X hX
    have ih := convertAnyOrderPack_shrinks Ts
    have hT := convert_shrinks T
    cases T <;> simp only [convertAnyOrderPack, List.mem_cons] at hX <;>
      rcases hX with rfl | hX <;> first
        | exact ih X hX
        | exact convert_AnyOrder_single_shrinks hT
        | exact convert_AnyOrder_optional_shrinks (by simpa only [convert] using hT)
end

/-! ## Evaluation helpers -/

theorem could_not_convert_int (a : String) :
    "Could not convert \"" ++ a ++ "\" to a " ++ "int"
      = "Could not convert \"" ++ a ++ "\" to a int" := by
  rw [String.append_assoc]
  rfl

theorem convert_int_c_singleton (a : String) :
    (convert (.integral .int)).c [a] =
      match stoi a with
      | some n => .ok (.int n, [])
      | none => .trace ⟨["Could not convert \"" ++ a ++ "\" to a int"]⟩ := by
  simp only [convert, convert_type, IntTy.ofInt, IntTy.name, EXCEPT, could_not_convert_int]

theorem stoi_of_convert_int_returns {a : String} {n : Int} {r : strings}
    (h : (convert (.integral .int)).c [a] = .ok (.int n, r)) : stoi a = some n := by
  rw [convert_int_c_singleton] at h
  cases hs : stoi a with
  | none => simp [hs] at h
  | some m => simp [hs] at h; rw [h.1]

theorem stoi_of_convert_int_fails {a : String}
    (h : ((convert (.integral .int)).c [a]).returns = false) : stoi a = none := by
  rw [convert_int_c_singleton] at h
  cases hs : stoi a with
  | none => rfl
  | some m => simp [hs, Outcome.returns] at h

/-! ## C1: round trip of the integral leaves -/

/-- C1, at the failing input: 4294967295 is a value of `uint32_t` and 9999999999 a value
of `uint64_t`, but converting the one-token lists holding their decimal spellings does
not give the values back: `std::stoi` parses an `int`, so both conversions throw, and so
does the sequence parser for `(uint32_t, string)` on `["4294967295", "x"]`. -/
theorem convert_type_wide_value_throws :
    (convert (.integral .uint32_t)).c ["4294967295"]
        = .trace ⟨["Could not convert \"4294967295\" to a uint32_t"]⟩
      ∧ (convert (.integral .uint64_t)).c ["9999999999"]
        = .trace ⟨["Could not convert \"9999999999\" to a uint64_t"]⟩
      ∧ Ty.parseSequence (.integral .uint32_t) [.string] ["4294967295", "x"]
        = .trace ⟨["Could not convert type uint32_t",
            "Could not convert \"4294967295\" to a uint32_t"]⟩ :=
  ⟨rfl, rfl, rfl⟩

/-! ## C2: leftover monotonicity -/

/-- C2: for every built-in convertible type `T` and every token list `vec`, when
`convert<T>::c(vec)` returns, the remaining list it returns is a suffix of `vec`, hence no
longer than `vec`. -/
theorem convert_remaining_suffix (T : Ty) (vec : strings) (v : Val) (rem : strings)
    (h : (convert T).c vec = .ok (v, rem)) : rem <:+ vec ∧ rem.length ≤ vec.length :=
  ⟨convert_shrinks T vec v rem h, (convert_shrinks T vec v rem h).length_le⟩

/-- C2 at a concrete input: `AnyOrder<optional<int>, string>` on `["tag", "7", "x"]`
leaves `["x"]`. -/
theorem convert_remaining_suffix_witness :
    (convert (.AnyOrder (.optional (.integral .int)) [.string])).c ["tag", "7", "x"]
        = .ok (.AnyOrder [.optional (some (.int 7)), .str "tag"], ["x"])
      ∧ (["x"] <:+ ["tag", "7", "x"] ∧ ["x"].length ≤ ["tag", "7", "x"].length) := by
  have h1 : stoi "tag" = none := by decide
  have h2 : stoi "7" = some 7 := by decide
  have h : (convert (.AnyOrder (.optional (.integral .int)) [.string])).c ["tag", "7", "x"]
      = .ok (.AnyOrder [.optional (some (.int 7)), .str "tag"], ["x"]) := by
    simp [convert, convertAnyOrderPack, convert_AnyOrder, AnyOrder.c_limited,
      convert_AnyOrder_optional, convert_AnyOrder_single, convert_optional, convert_type,
      convert_string, h1, h2, EXCEPT, Val.wrapped, back_cycle, IntTy.ofInt]
  exact ⟨h, convert_remaining_suffix _ _ _ _ h⟩

/-! ## C3: `std::optional<X>` -/

/-- C3, counterexample: for `X = AnyOrder<std::optional<int>>` and the tokens `["abc"]`
the conversion of `X` fails (it throws `"nopt"`), and the conversion of
`std::optional<X>` does not return "absent": the `char const*` passes through its
`catch(TraceException _)`. -/
theorem convert_optional_nopt_escapes :
    (convert (.AnyOrder (.optional (.integral .int)) [])).c ["abc"] = .cstr "nopt"
      ∧ (convert (.optional (.AnyOrder (.optional (.integral .int)) []))).c ["abc"]
        = .cstr "nopt" := by
  have h : stoi "abc" = none := by decide
  constructor <;>
    simp [convert, convertAnyOrderPack, convert_AnyOrder, AnyOrder.c_limited,
      convert_AnyOrder_optional, convert_optional, convert_type, h, EXCEPT]

/-- C3 as amended: for every converter `X` (built-in or user-defined) and every token
list `ts`, `convert<std::optional<X>>::c(ts)` is "absent" with `ts` itself when `ts` is
empty; otherwise it is "present" with the value and remaining tail of `X` when `X`
returns, "absent" with `ts` itself when `X` throws a `TraceException`, and the thrown
`char const*` when `X` throws one. `std::optional<int>` on `["abc"]` is "absent" with
`["abc"]`. -/
theorem convert_optional_c_spec (X : Converter) (ts : strings) :
    (ts = [] → (convert_optional X).c ts = .ok (.optional none, ts))
      ∧ (ts ≠ [] → ∀ v rem, X.c ts = .ok (v, rem) →
          (convert_optional X).c ts = .ok (.optional (some v), rem))
      ∧ (ts ≠ [] → ∀ e, X.c ts = .trace e →
          (convert_optional X).c ts = .ok (.optional none, ts))
      ∧ (ts ≠ [] → ∀ s, X.c ts = .cstr s → (convert_optional X).c ts = .cstr s)
      ∧ (convert (.optional (.integral .int))).c ["abc"] = .ok (.optional none, ["abc"]) := by
  refine ⟨?_, ?_, ?_, ?_, rfl⟩
  · rintro rfl
    rfl
  · intro hne v rem h
    simp [convert_optional, hne, h]
  · intro hne e h
    simp [convert_optional, hne, h]
  · intro hne s h
    simp [convert_optional, hne, h]

/-- C3 as amended, at concrete inputs: `std::optional<int>` on `["12", "x"]` is present,
on `["abc"]` absent with the tokens untouched. -/
theorem convert_optional_c_spec_witness :
    (convert_optional (convert (.integral .int))).c ["12", "x"]
        = .ok (.optional (some (.int 12)), ["x"])
      ∧ (convert_optional (convert (.integral .int))).c ["abc"]
        = .ok (.optional none, ["abc"]) :=
  ⟨(convert_optional_c_spec (convert (.integral .int)) ["12", "x"]).2.1 (by simp) _ _ rfl,
    (convert_optional_c_spec (convert (.integral .int)) ["abc"]).2.2.1 (by simp) _ rfl⟩

/-! ## C4: the sequence `(int, string)` -/

/-- C4: for the declared sequence `(int, string)` and every token list `a :: b :: rest`,
the sequence parser returns exactly when `a` converts to `int`; it then returns the
values `(int(a), b)` and the remaining list `rest`; when `a` does not convert it throws
the conversion error of `a`, whatever `b` is. -/
theorem parseSequence_int_string (a b : String) (rest : strings) :
    ((Ty.parseSequence (.integral .int) [.string] (a :: b :: rest)).returns = true
        ↔ ((convert (.integral .int)).c [a]).returns = true)
      ∧ (∀ n, (convert (.integral .int)).c [a] = .ok (.int n, []) →
          Ty.parseSequence (.integral .int) [.string] (a :: b :: rest)
            = .ok ([.int n, .str b], rest))
      ∧ (((convert (.integral .int)).c [a]).returns = false →
          Ty.parseSequence (.integral .int) [.string] (a :: b :: rest)
            = .trace ⟨["Could not convert type int",
                "Could not convert \"" ++ a ++ "\" to a int"]⟩) := by
  have key : Ty.parseSequence (.integral .int) [.string] (a :: b :: rest) =
      match stoi a with
      | some n => .ok ([.int n, .str b], rest)
      | none => .trace ⟨["Could not convert type int",
          "Could not convert \"" ++ a ++ "\" to a int"]⟩ := by
    simp only [Ty.parseSequence, convert, convertPack, _parser_.parse, convert_type,
      convert_string, IntTy.ofInt, IntTy.name, EXCEPT, EXCEPT_CHAIN, could_not_convert_int]
    cases stoi a <;> simp
  rw [key, convert_int_c_singleton]
  cases hs : stoi a <;> simp [Outcome.returns]

/-- C4 at the inputs of the spec: `["notanint", "hello"]` fails and `["5", "hello"]`
gives `(5, "hello")` with nothing remaining. -/
theorem parseSequence_int_string_witness :
    Ty.parseSequence (.integral .int) [.string] ["notanint", "hello"]
        = .trace ⟨["Could not convert type int", "Could not convert \"notanint\" to a int"]⟩
      ∧ Ty.parseSequence (.integral .int) [.string] ["5", "hello"]
        = .ok ([.int 5, .str "hello"], []) :=
  ⟨(parseSequence_int_string "notanint" "hello" []).2.2 rfl,
    (parseSequence_int_string "5" "hello" []).2.1 5 rfl⟩

/-! ## C5: `AnyOrder` over `int` and `string` -/

/-- C5, counterexample: `"tag"` does not convert to `int` and `"7"` is an `int` numeral,
but `AnyOrder<int, string>` on `["tag", "7"]` throws the conversion error of `"tag"`: a
`TraceException` is not what `catch(char const *_)` handles, so no rotation is tried. -/
theorem convert_AnyOrder_int_string_throws :
    ((convert (.integral .int)).c ["tag"]).returns = false
      ∧ (convert (.integral .int)).c ["7"] = .ok (.int 7, [])
      ∧ (convert (.AnyOrder (.integral .int) [.string])).c ["tag", "7"]
        = .trace ⟨["Could not convert \"tag\" to a int"]⟩ := by
  have h : stoi "tag" = none := by decide
  refine ⟨rfl, rfl, ?_⟩
  simp [convert, convertAnyOrderPack, convert_AnyOrder, AnyOrder.c_limited,
    convert_AnyOrder_single, convert_type, h, EXCEPT, IntTy.name]

/-- C5 as amended: rotation is driven by the absence of an optional. For
`AnyOrder<A = std::optional<int>, B = string>` and every two-token list `[s, n]` in which
`s` does not convert to `int` and `n` converts to the `int` `k`, the conversion succeeds
after one rotation and returns the values in declared order, `(A = k, B = s)`, with
nothing remaining; for `AnyOrder<A = int, B = string>` the same tokens throw the
conversion error of `s`. -/
theorem convert_AnyOrder_optional_int_string (s n : String) (k : Int)
    (hs : ((convert (.integral .int)).c [s]).returns = false)
    (hn : (convert (.integral .int)).c [n] = .ok (.int k, [])) :
    (convert (.AnyOrder (.optional (.integral .int)) [.string])).c [s, n]
        = .ok (.AnyOrder [.optional (some (.int k)), .str s], [])
      ∧ (convert (.AnyOrder (.integral .int) [.string])).c [s, n]
        = .trace ⟨["Could not convert \"" ++ s ++ "\" to a int"]⟩ := by
  have h1 := stoi_of_convert_int_fails hs
  have h2 := stoi_of_convert_int_returns hn
  constructor
  · simp [convert, convertAnyOrderPack, convert_AnyOrder, AnyOrder.c_limited,
      convert_AnyOrder_optional, convert_AnyOrder_single, convert_optional, convert_type,
      convert_string, h1, h2, EXCEPT, Val.wrapped, back_cycle, IntTy.ofInt]
  · simp [convert, convertAnyOrderPack, convert_AnyOrder, AnyOrder.c_limited,
      convert_AnyOrder_single, convert_type, h1, EXCEPT, IntTy.name, could_not_convert_int]

/-- C5 as amended, at the input of the spec: `["tag", "7"]` gives `(A = 7, B = "tag")`. -/
theorem convert_AnyOrder_optional_int_string_witness :
    ((convert (.integral .int)).c ["tag"]).returns = false
      ∧ (convert (.integral .int)).c ["7"] = .ok (.int 7, [])
      ∧ (convert (.AnyOrder (.optional (.integral .int)) [.string])).c ["tag", "7"]
        = .ok (.AnyOrder [.optional (some (.int 7)), .str "tag"], []) :=
  ⟨rfl, rfl, (convert_AnyOrder_optional_int_string "tag" "7" 7 rfl rfl).1⟩

/-! ## C6: exhausted rotations -/

/-- C6, at the failing input: for `AnyOrder<std::optional<int>, std::optional<int>>` on
`["abc"]` the head of every rotation is an `std::optional<int>` that is absent
(`convert<AnyOrder<std::optional<int>>>::c` throws `"nopt"`), so no rotation parses; the
conversion nevertheless returns: the value-initialised tuple and an empty remaining
list, the token `"abc"` being dropped. -/
theorem convert_AnyOrder_exhausted_returns :
    (convert (.AnyOrder (.optional (.integral .int)) [])).c ["abc"] = .cstr "nopt"
      ∧ (convert (.AnyOrder (.optional (.integral .int)) [.optional (.integral .int)])).c ["abc"]
        = .ok (.AnyOrder [.optional none, .optional none], []) := by
  have h : stoi "abc" = none := by decide
  constructor <;>
    simp [convert, convertAnyOrderPack, convert_AnyOrder, AnyOrder.c_limited,
      convert_AnyOrder_optional, convert_optional, convert_type, h, EXCEPT,
      AnyOrder.initWrapped, Val.wrapped, back_cycle]

/-! ## C7: the order `(B, A, C)` -/

theorem oneString_c (T : Flag) (a0 v : String) (rest : strings) :
    (convert (oneString T).toTy).c (a0 :: v :: rest) =
      if a0 = T.full ∨ a0 = T.simple then .ok (.Argument_ T [.str v] rest, rest)
      else .trace ⟨["Could not parse flag: " ++ a0]⟩ := by
  simp only [oneString, ArgClass.toTy, convert, convertPack, convert_default, Argument_.parse,
    _parser_.parse, convert_string, EXCEPT, Argument.toVal]
  split <;> rfl

theorem optionalGroup_c (T : Flag) (a0 v : String) (rest : strings) :
    (optionalGroup T).c (a0 :: v :: rest) =
      if a0 = T.full ∨ a0 = T.simple then
        .ok (.AnyOrder [.optional (some (.Argument_ T [.str v] rest))], rest)
      else .cstr "nopt" := by
  simp only [optionalGroup, convert_AnyOrder_optional, convert_optional, oneString_c]
  by_cases h : a0 = T.full ∨ a0 = T.simple <;> simp [h]

theorem plainGroup_c (T : Flag) (a0 v : String) (rest : strings) :
    (plainGroup T).c (a0 :: v :: rest) =
      if a0 = T.full ∨ a0 = T.simple then
        .ok (.AnyOrder [.Argument_ T [.str v] rest], rest)
      else .trace ⟨["Could not parse flag: " ++ a0]⟩ := by
  simp only [plainGroup, convert_AnyOrder_single, oneString_c]
  by_cases h : a0 = T.full ∨ a0 = T.simple <;> simp [h]

theorem convert_AnyOrder_optional_groups (fa fb fc : Flag) :
    convert (.AnyOrder (.optional (oneString fa).toTy)
        [.optional (oneString fb).toTy, .optional (oneString fc).toTy])
      = convert_AnyOrder (optionalGroup fa) [optionalGroup fb, optionalGroup fc]
          (convert (.optional (oneString fa).toTy))
          [convert (.optional (oneString fb).toTy), convert (.optional (oneString fc).toTy)] := by
  simp only [convert, convertAnyOrderPack, convertPack, optionalGroup]

theorem convert_AnyOrder_plain_groups (fa fb fc : Flag) :
    convert (.AnyOrder (oneString fa).toTy [(oneString fb).toTy, (oneString fc).toTy])
      = convert_AnyOrder (plainGroup fa) [plainGroup fb, plainGroup fc]
          (convert (oneString fa).toTy)
          [convert (oneString fb).toTy, convert (oneString fc).toTy] := by
  simp only [oneString, ArgClass.toTy, convert, convertAnyOrderPack, convertPack, plainGroup]

/-- C7, counterexample: the groups `--a`, `--b`, `--c` take one string each and the tokens
of each convert only as its own type, and `AnyOrder` over the three as optionals, fed
the values in the order `(B, A, C)`, returns them in declared order: after the rotation
to `(B, C, A)` parsed `B`, the rest `(C, A)` is searched as an `AnyOrder` of its own. -/
theorem convert_AnyOrder_BAC_accepted :
    (∀ i j : Fin 3,
        ((convert ([groupA.toTy, groupB.toTy, groupC.toTy].get i)).c
          ([["--a", "x"], ["--b", "y"], ["--c", "z"]].get j)).returns = decide (i = j))
      ∧ (convert (.AnyOrder (.optional groupA.toTy)
            [.optional groupB.toTy, .optional groupC.toTy])).c
          ["--b", "y", "--a", "x", "--c", "z"]
        = .ok (.AnyOrder
            [.optional (some (.Argument_ groupA.T [.str "x"] ["--c", "z"])),
              .optional (some (.Argument_ groupB.T [.str "y"] ["--a", "x", "--c", "z"])),
              .optional (some (.Argument_ groupC.T [.str "z"] []))], []) := by
  refine ⟨by decide, ?_⟩
  simp only [groupA, groupB, groupC, convert_AnyOrder_optional_groups, convert_AnyOrder]
  simp [AnyOrder.c_limited, optionalGroup_c, Val.wrapped, back_cycle, oneString]

/-- C7 as amended: the search is not limited to rotations, because the types after the
head of a rotation are searched again as an `AnyOrder` of their own. For three groups
`A`, `B`, `C` taking one string each, with the flag of `B` different from the spellings of
`A` and the flag of `A` different from the spellings of `C`, the tokens in the order
`(B, A, C)` are accepted by `AnyOrder<optional<A>, optional<B>, optional<C>>`, which
returns the three values in declared order with nothing remaining; without the
optionals, `AnyOrder<A, B, C>` throws on the same tokens the error of its first
type. -/
theorem convert_AnyOrder_BAC (fa fb fc : Flag) (x y z : String)
    (hba : fb.full ≠ fa.full ∧ fb.full ≠ fa.simple)
    (hac : fa.full ≠ fc.full ∧ fa.full ≠ fc.simple) :
    (convert (.AnyOrder (.optional (oneString fa).toTy)
          [.optional (oneString fb).toTy, .optional (oneString fc).toTy])).c
        [fb.full, y, fa.full, x, fc.full, z]
        = .ok (.AnyOrder
            [.optional (some (.Argument_ fa [.str x] [fc.full, z])),
              .optional (some (.Argument_ fb [.str y] [fa.full, x, fc.full, z])),
              .optional (some (.Argument_ fc [.str z] []))], [])
      ∧ (convert (.AnyOrder (oneString fa).toTy [(oneString fb).toTy, (oneString fc).toTy])).c
        [fb.full, y, fa.full, x, fc.full, z]
        = .trace ⟨["Could not parse flag: " ++ fb.full]⟩ := by
  constructor
  · simp only [convert_AnyOrder_optional_groups, convert_AnyOrder]
    simp [AnyOrder.c_limited, optionalGroup_c, Val.wrapped, back_cycle, hba.1, hba.2,
      hac.1, hac.2]
  · simp only [convert_AnyOrder_plain_groups, convert_AnyOrder]
    simp [AnyOrder.c_limited, plainGroup_c, hba.1, hba.2]

/-- C7 as amended, at the groups `--a`, `--b`, `--c`. -/
theorem convert_AnyOrder_BAC_witness :
    (convert (.AnyOrder (.optional groupA.toTy)
          [.optional groupB.toTy, .optional groupC.toTy])).c
        ["--b", "y", "--a", "x", "--c", "z"]
        = .ok (.AnyOrder
            [.optional (some (.Argument_ groupA.T [.str "x"] ["--c", "z"])),
              .optional (some (.Argument_ groupB.T [.str "y"] ["--a", "x", "--c", "z"])),
              .optional (some (.Argument_ groupC.T [.str "z"] []))], [])
      ∧ (convert (.AnyOrder groupA.toTy [groupB.toTy, groupC.toTy])).c
        ["--b", "y", "--a", "x", "--c", "z"]
        = .trace ⟨["Could not parse flag: --b"]⟩ :=
  convert_AnyOrder_BAC groupA.T groupB.T groupC.T "x" "y" "z"
    ⟨by decide, by decide⟩ ⟨by decide, by decide⟩

/-! ## C8 and C9: the group selector -/

theorem GroupParse_parse_of_returns (T : ArgClass) (Ts : List ArgClass) (args : strings)
    (g : Argument) (h : T.parse args = .ok g) : GroupParse.parse T Ts args = .ok g := by
  cases Ts with
  | nil => simpa [GroupParse.parse] using h
  | cons T' Ts => simp [GroupParse.parse, h]

theorem GroupParse_parse_of_throws (T T' : ArgClass) (Ts : List ArgClass) (args : strings)
    (h : (T.parse args).throws = true) :
    GroupParse.parse T (T' :: Ts) args = GroupParse.parse T' Ts args := by
  rw [GroupParse.parse]
  cases hT : T.parse args <;> simp_all [Outcome.throws]

/-- C8: for every ordered list of candidates `T :: Ts` and every token list, if the
candidate `A` parses the tokens and every candidate declared before it fails by throwing
(a `TraceException` or a `char const*`; a run that reaches undefined behaviour neither
returns nor throws), then `GroupParse::parse` returns the object of `A`; the candidates
`post` declared after `A` have no part in the result. In particular, of two candidates
that both parse the tokens the first one is returned. -/
theorem GroupParse_first_match (T : ArgClass) (Ts pre post : List ArgClass) (A : ArgClass)
    (args : strings) (g : Argument)
    (hsplit : T :: Ts = pre ++ A :: post)
    (hpre : ∀ B ∈ pre, (B.parse args).throws = true)
    (hA : A.parse args = .ok g) :
    GroupParse.parse T Ts args = .ok g := by
  induction pre generalizing T Ts with
  | nil =>
    simp only [List.nil_append, List.cons.injEq] at hsplit
    obtain ⟨rfl, rfl⟩ := hsplit
    exact GroupParse_parse_of_returns T Ts args g hA
  | cons B pre ih =>
    simp only [List.cons_append, List.cons.injEq] at hsplit
    obtain ⟨rfl, rfl⟩ := hsplit
    cases hp : pre ++ A :: post with
    | nil => simp at hp
    | cons T' Ts' =>
      rw [GroupParse_parse_of_throws T T' Ts' args (hpre T (List.mem_cons_self _ _))]
      exact ih T' Ts' hp.symm (fun B hB => hpre B (List.mem_cons_of_mem _ hB))

/-- C8 at concrete inputs: `--x <string>` and `--x <path>` both parse `["--x", "v"]`; with
either declared first, the first is returned. After a candidate that fails, the first
of the two that parse is returned as well. -/
theorem GroupParse_first_match_witness :
    xPath.parse ["--x", "v"] = .ok ⟨xPath.T, [.path "v"], []⟩
      ∧ GroupParse.parse xString [xPath] ["--x", "v"] = .ok ⟨xString.T, [.str "v"], []⟩
      ∧ GroupParse.parse groupA [xString, xPath] ["--x", "v"]
        = .ok ⟨xString.T, [.str "v"], []⟩ :=
  ⟨rfl,
    GroupParse_first_match xString [xPath] [] [xPath] xString ["--x", "v"] _ rfl
      (by simp) rfl,
    GroupParse_first_match groupA [xString, xPath] [groupA] [xPath] xString ["--x", "v"] _ rfl
      (by simp; rfl) rfl⟩

/-- C9: a candidate that fails by throwing (a `TraceException`, whatever its message, or
the `char const*` `"nopt"`) and is not the last hands the tokens to the remaining
candidates, so that its exception does not leave `GroupParse::parse`; and
`GroupParse::parse` fails by throwing exactly when every candidate fails by throwing. -/
theorem GroupParse_fallthrough (T : ArgClass) (args : strings) :
    (∀ T' Ts, (T.parse args).throws = true →
        GroupParse.parse T (T' :: Ts) args = GroupParse.parse T' Ts args)
      ∧ (∀ Ts, (GroupParse.parse T Ts args).throws = true
          ↔ ∀ A ∈ T :: Ts, (A.parse args).throws = true) := by
  refine ⟨fun T' Ts h => GroupParse_parse_of_throws T T' Ts args h, ?_⟩
  intro Ts
  induction Ts generalizing T with
  | nil => simp [GroupParse.parse]
  | cons T' Ts ih =>
    rw [GroupParse.parse]
    cases hT : T.parse args with
    | ok g => simp [Outcome.throws, hT]
    | trace e => simpa [Outcome.throws, hT] using ih T'
    | cstr s => simpa [Outcome.throws, hT] using ih T'
    | undefined => simp [Outcome.throws, hT]

/-- C9 at concrete inputs: on `["--x", "v", "w"]` four candidates fail in the four ways
(flag not recognised, missing arguments, conversion error, `"nopt"`), none of the
failures leaves the selector, and the fifth candidate is returned. -/
theorem GroupParse_fallthrough_witness :
    groupA.parse ["--x", "v", "w"] = .trace ⟨["Could not parse flag: --x"]⟩
      ∧ xFourStrings.parse ["--x", "v", "w"]
        = .trace ⟨["Parsing flag --x failed.", "Missing arguments"]⟩
      ∧ xIntString.parse ["--x", "v", "w"]
        = .trace ⟨["Parsing flag --x failed.", "Could not convert type int",
            "Could not convert \"v\" to a int"]⟩
      ∧ xAnyOrderOptionalInt.parse ["--x", "v", "w"] = .cstr "nopt"
      ∧ GroupParse.parse groupA [xFourStrings, xIntString, xAnyOrderOptionalInt, xTwoStrings]
          ["--x", "v", "w"]
        = .ok ⟨xTwoStrings.T, [.str "v", .str "w"], []⟩ := by
  have h1 : groupA.parse ["--x", "v", "w"] = .trace ⟨["Could not parse flag: --x"]⟩ := rfl
  have h2 : xFourStrings.parse ["--x", "v", "w"]
      = .trace ⟨["Parsing flag --x failed.", "Missing arguments"]⟩ := rfl
  have h3 : xIntString.parse ["--x", "v", "w"]
      = .trace ⟨["Parsing flag --x failed.", "Could not convert type int",
          "Could not convert \"v\" to a int"]⟩ := rfl
  have h4 : xAnyOrderOptionalInt.parse ["--x", "v", "w"] = .cstr "nopt" := by
    have h : stoi "v" = none := by decide
    simp [xAnyOrderOptionalInt, ArgClass.parse, Argument_.parse, _parser_.parse, convert,
      convertPack, convertAnyOrderPack, convert_AnyOrder, AnyOrder.c_limited,
      convert_AnyOrder_optional, convert_optional, convert_type, h, EXCEPT]
  refine ⟨h1, h2, h3, h4, ?_⟩
  rw [(GroupParse_fallthrough groupA ["--x", "v", "w"]).1 _ _ (by rw [h1]; rfl),
    (GroupParse_fallthrough xFourStrings ["--x", "v", "w"]).1 _ _ (by rw [h2]; rfl),
    (GroupParse_fallthrough xIntString ["--x", "v", "w"]).1 _ _ (by rw [h3]; rfl),
    (GroupParse_fallthrough xAnyOrderOptionalInt ["--x", "v", "w"]).1 _ _ (by rw [h4]; rfl)]
  rfl

/-! ## C10: trailing arguments -/

/-- C10: for every candidate list and every argument vector `argv0 :: arguments`, when the
group selector returns the object `g` on `arguments`, `ParseArgs` throws the error naming
the first leftover token if `g.args_` is not empty, and returns `g` if it is empty. -/
theorem ParseArgs_trailing (T : ArgClass) (Ts : List ArgClass) (argv0 : String)
    (arguments : strings) (g : Argument) (h : GroupParse.parse T Ts arguments = .ok g) :
    (∀ t ts, g.args_ = t :: ts →
        ParseArgs T Ts (argv0 :: arguments) = .trace ⟨["Argument " ++ t ++ " not parsed."]⟩)
      ∧ (g.args_ = [] → ParseArgs T Ts (argv0 :: arguments) = .ok g) := by
  constructor
  · intro t ts hg
    simp [ParseArgs, h, Argument.EnsureNoRemainingArguments, hg, EXCEPT]
  · intro hg
    simp [ParseArgs, h, Argument.EnsureNoRemainingArguments, hg]

/-- C10 at concrete inputs: `prog --b x y` is rejected with the message naming `y`, and
`prog --b x` is accepted. -/
theorem ParseArgs_trailing_witness :
    ParseArgs groupA [groupB] ["prog", "--b", "x", "y"]
        = .trace ⟨["Argument y not parsed."]⟩
      ∧ ParseArgs groupA [groupB] ["prog", "--b", "x"] = .ok ⟨groupB.T, [.str "x"], []⟩ :=
  ⟨(ParseArgs_trailing groupA [groupB] "prog" ["--b", "x", "y"]
      ⟨groupB.T, [.str "x"], ["y"]⟩ rfl).1 "y" [] rfl,
    (ParseArgs_trailing groupA [groupB] "prog" ["--b", "x"]
      ⟨groupB.T, [.str "x"], []⟩ rfl).2 rfl⟩

/-! ## C11: the flag matcher -/

/-- C11: for every class declared by `Arg` (flag spellings `full` and `simple`, declared
value types `P, Ps...`) and every token list: on the empty list and on a list whose first
token is neither spelling the match throws; on a list whose first token is one of the
spellings the match returns exactly when the sequence parser returns on the rest of the
list, and the object then holds as `parsed_` and `args_` exactly the values and the
remaining list the sequence parser returned. -/
theorem ArgClass_parse_spec (A : ArgClass) (a0 : String) (rest : strings) :
    A.parse [] = .trace ⟨["Could not parse empty flags"]⟩
      ∧ (a0 ≠ A.T.full → a0 ≠ A.T.simple →
          A.parse (a0 :: rest) = .trace ⟨["Could not parse flag: " ++ a0]⟩)
      ∧ (a0 = A.T.full ∨ a0 = A.T.simple →
          ((A.parse (a0 :: rest)).returns = (Ty.parseSequence A.P A.Ps rest).returns)
            ∧ ∀ vs rem, Ty.parseSequence A.P A.Ps rest = .ok (vs, rem) →
              A.parse (a0 :: rest) = .ok ⟨A.T, vs, rem⟩) := by
  refine ⟨rfl, ?_, ?_⟩
  · intro h1 h2
    simp [ArgClass.parse, Argument_.parse, h1, h2, EXCEPT]
  · intro h
    simp only [ArgClass.parse, Argument_.parse, Ty.parseSequence, if_pos h]
    constructor
    · cases _parser_.parse (convert A.P) (convertPack A.Ps) rest <;>
        simp [Outcome.returns, EXCEPT_CHAIN]
    · intro vs rem hp
      simp [hp]

/-- C11 at concrete inputs, for `Arg(XTwoStrings, std::string, std::string)` with the
flag `--x`, `-x`: the short spelling is recognised and the values and leftover of the
sequence parser are stored; another first token is rejected. -/
theorem ArgClass_parse_spec_witness :
    xTwoStrings.parse ["-x", "v", "w", "z"] = .ok ⟨xTwoStrings.T, [.str "v", .str "w"], ["z"]⟩
      ∧ xTwoStrings.parse ["--y", "v", "w"] = .trace ⟨["Could not parse flag: --y"]⟩ :=
  ⟨((ArgClass_parse_spec xTwoStrings "-x" ["v", "w", "z"]).2.2 (Or.inr rfl)).2 _ _ rfl,
    (ArgClass_parse_spec xTwoStrings "--y" ["v", "w"]).2.1 (by decide) (by decide)⟩

/-! ## C12: exhausted tokens -/

/-- C12, at the failing input: the one-type sequence `(string)` on the empty list, and the
sequence `(int, string)` on `["5"]`, reach the converter of `std::string` with no token
left, which is undefined behaviour (`vec.begin()+1` of an empty vector): the base case
`_parser_<F>::parse` has no test for an empty list. The recursive case has it: `(string,
string)` on the empty list throws "Missing arguments". The flag `--x` of
`Arg(XString, std::string)` given without its value runs into the same. -/
theorem parser_base_case_unguarded :
    Ty.parseSequence .string [] [] = .undefined
      ∧ Ty.parseSequence (.integral .int) [.string] ["5"] = .undefined
      ∧ Ty.parseSequence .string [.string] [] = .trace ⟨["Missing arguments"]⟩
      ∧ xString.parse ["--x"] = .undefined :=
  ⟨rfl, rfl, rfl, rfl⟩

/-! ## C13: tokens that are not numerals -/

theorem stoi_eq_none_of_numeralPrefix (t : String) (h : numeralPrefix t = []) :
    stoi t = none := by
  have key : ∀ s : List Char,
      (match s with
        | '-' :: t => (true, t)
        | '+' :: t => (false, t)
        | _ => (false, s) : Bool × List Char).2
      = (match s with
        | '-' :: t => t
        | '+' :: t => t
        | _ => s) := by
    intro s
    split <;> rfl
  unfold numeralPrefix at h
  unfold stoi
  simp only [key, h, List.isEmpty_nil, if_true]

theorem convert_type_c_cons (TYPE : IntTy) (t : String) (rest : strings) :
    (convert (.integral TYPE)).c (t :: rest) =
      match stoi t with
      | some n => .ok (.int (TYPE.ofInt n), rest)
      | none => .trace ⟨["Could not convert \"" ++ t ++ "\" to a " ++ TYPE.name]⟩ := by
  simp only [convert, convert_type, EXCEPT]

/-- C13, counterexample: `"12abc"` is not in its entirety a numeral, and converting
`["12abc"]` to `int` returns the value 12 with the token consumed: `std::stoi` reads the
numeral at the front of the token and ignores what follows it. -/
theorem convert_int_numeral_prefix_accepted :
    (convert (.integral .int)).c ["12abc"] = .ok (.int 12, []) :=
  rfl

/-- C13 as amended: for every integral leaf type and every non-empty token list whose
first token `t` does not start, after optional white space and an optional sign, with a
decimal digit (for example `"abc"`), the conversion throws the error whose message
carries `t` and the name of the type, and returns nothing. A token that starts with a
numeral is converted from that numeral, whatever follows it: `"12abc"` gives 12. -/
theorem convert_type_rejects_non_numeral (TYPE : IntTy) (t : String) (rest : strings)
    (h : numeralPrefix t = []) :
    (convert (.integral TYPE)).c (t :: rest)
        = .trace ⟨["Could not convert \"" ++ t ++ "\" to a " ++ TYPE.name]⟩
      ∧ numeralPrefix "12abc" = ['1', '2']
      ∧ (convert (.integral TYPE)).c ("12abc" :: rest) = .ok (.int 12, rest) := by
  refine ⟨?_, by decide, ?_⟩
  · rw [convert_type_c_cons, stoi_eq_none_of_numeralPrefix t h]
  · rw [convert_type_c_cons, show stoi "12abc" = some 12 from by decide]
    cases TYPE <;> rfl

/-- C13 as amended, at `"abc"` for `uint16_t`. -/
theorem convert_type_rejects_non_numeral_witness :
    (convert (.integral .uint16_t)).c ["abc", "x"]
      = .trace ⟨["Could not convert \"abc\" to a uint16_t"]⟩ :=
  (convert_type_rejects_non_numeral .uint16_t "abc" ["x"] (by decide)).1

/-! ## The search of `c_limited`: unfolding lemmas -/

theorem c_limited_cons (F F' : Converter) (R : List Converter) (vec : strings) (itrs : Nat) :
    AnyOrder.c_limited F (F' :: R) vec itrs =
      match AnyOrder.attempt F F' R vec with
      | .cstr _ =>
        if itrs ≤ R.length + 2 then do
          let cycle ← AnyOrder.c_limited F' (R ++ [F]) vec (itrs + 1)
          pure (.AnyOrder (back_cycle cycle.1.wrapped), cycle.2)
        else .ok (.AnyOrder (AnyOrder.initWrapped (F :: F' :: R)), [])
      | o => o := by
  rw [AnyOrder.c_limited]
  rfl

theorem c_limited_of_attempt_ok {F F' : Converter} {R : List Converter} {vec : strings}
    (itrs : Nat) {x : converted Val} (h : AnyOrder.attempt F F' R vec = .ok x) :
    AnyOrder.c_limited F (F' :: R) vec itrs = .ok x := by
  rw [c_limited_cons, h]

theorem c_limited_of_attempt_cstr {F F' : Converter} {R : List Converter} {vec : strings}
    {itrs : Nat} {s : String} (h : AnyOrder.attempt F F' R vec = .cstr s)
    (hle : itrs ≤ R.length + 2) :
    AnyOrder.c_limited F (F' :: R) vec itrs = (do
      let cycle ← AnyOrder.c_limited F' (R ++ [F]) vec (itrs + 1)
      pure (.AnyOrder (back_cycle cycle.1.wrapped), cycle.2)) := by
  rw [c_limited_cons, h]
  simp only [if_pos hle]

theorem attempt_ok_wrapped {F F' : Converter} {R : List Converter} {vec : strings}
    {x : converted Val} (h : AnyOrder.attempt F F' R vec = .ok x) :
    x = (.AnyOrder x.1.wrapped, x.2) := by
  simp only [AnyOrder.attempt, Outcome.bind_eq_ok, Outcome.pure_eq_ok, Outcome.ok.injEq] at h
  obtain ⟨first, -, rest, -, rfl⟩ := h
  rfl

theorem back_cycle_concat (rs : List Val) (f : Val) : back_cycle (rs ++ [f]) = f :: rs := by
  simp [back_cycle]

theorem back_cycle_rotate_one (ws : List Val) : (back_cycle ws).rotate 1 = ws := by
  rcases List.eq_nil_or_concat ws with rfl | ⟨rs, f, rfl⟩
  · rfl
  · rw [List.concat_eq_append, back_cycle_concat, List.rotate_cons_succ, List.rotate_zero]

theorem back_cycle_iterate_rotate (k : Nat) (ws : List Val) :
    (back_cycle^[k] ws).rotate k = ws := by
  induction k with
  | zero => simp
  | succ k ih =>
    rw [Function.iterate_succ_apply', Nat.add_comm k 1, ← List.rotate_rotate,
      back_cycle_rotate_one, ih]

theorem found_spec (F : Converter) (R : List Converter) (vec : strings) (itrs : Nat) :
    ∀ k pack ws rem, AnyOrder.found F R vec itrs = some (k, pack, ws, rem) →
      pack = (F :: R).rotate k
        ∧ AnyOrder.c_limited F R vec itrs = .ok (.AnyOrder (back_cycle^[k] ws), rem) := by
  induction F, R, vec, itrs using AnyOrder.found.induct with
  | case1 F vec itrs =>
    intro k pack ws rem h
    simp [AnyOrder.found] at h
  | case2 F F' R vec itrs x hx =>
    intro k pack ws rem h
    rw [AnyOrder.found, hx] at h
    simp only [Option.some.injEq, Prod.mk.injEq] at h
    obtain ⟨rfl, rfl, rfl, rfl⟩ := h
    refine ⟨by simp, ?_⟩
    rw [c_limited_of_attempt_ok itrs hx, Function.iterate_zero, id, ← attempt_ok_wrapped hx]
  | case3 F F' R vec itrs s hs elements hle ih =>
    intro k pack ws rem h
    rw [AnyOrder.found, hs] at h
    have hle1 : itrs ≤ (F :: F' :: R).length := hle
    have hle2 : itrs ≤ R.length + 2 := by simpa using hle1
    simp only [if_pos hle1, Option.map_eq_some'] at h
    obtain ⟨⟨k', pack', ws', rem'⟩, hr, heq⟩ := h
    simp only [Prod.mk.injEq] at heq
    obtain ⟨rfl, rfl, rfl, rfl⟩ := heq
    obtain ⟨hp, hc⟩ := ih k' pack' ws' rem' hr
    refine ⟨?_, ?_⟩
    · rw [hp, List.rotate_cons_succ, List.cons_append]
    · rw [c_limited_of_attempt_cstr hs hle2, hc, Function.iterate_succ_apply']
      rfl
  | case4 F F' R vec itrs s hs elements hle =>
    intro k pack ws rem h
    have hle1 : ¬ itrs ≤ (F :: F' :: R).length := hle
    rw [AnyOrder.found, hs] at h
    simp only [if_neg hle1] at h
    exact absurd h (by simp)
  | case5 F F' R vec itrs hok hcstr =>
    intro k pack ws rem h
    rw [AnyOrder.found] at h
    split at h
    · rename_i x hx
      exact absurd hx (hok x)
    · rename_i s hs
      exact absurd hs (hcstr s)
    · simp at h

theorem attempts_le (F : Converter) (R : List Converter) (vec : strings) (itrs : Nat) :
    AnyOrder.attempts F R vec itrs ≤ max 1 (R.length + 3 - itrs) := by
  induction F, R, vec, itrs using AnyOrder.attempts.induct with
  | case1 F vec itrs => simp [AnyOrder.attempts]
  | case2 F F' R vec itrs s hs elements hle ih =>
    have hle1 : itrs ≤ (F :: F' :: R).length := hle
    have hle2 : itrs ≤ R.length + 2 := by simpa using hle1
    rw [AnyOrder.attempts, hs]
    simp only [if_pos hle1]
    simp only [List.length_append, List.length_cons, List.length_nil] at ih ⊢
    omega
  | case3 F F' R vec itrs s hs elements hle =>
    have hle1 : ¬ itrs ≤ (F :: F' :: R).length := hle
    rw [AnyOrder.attempts, hs]
    simp only [if_neg hle1]
    exact le_max_left _ _
  | case4 F F' R vec itrs hne =>
    rw [AnyOrder.attempts]
    split
    · rename_i s hs
      exact absurd hs (hne s)
    · simp

/-! ## C14: an absent optional inside `AnyOrder` -/

theorem convert_AnyOrder_pack_string_optional_int :
    convert (.AnyOrder .string [.optional (.integral .int)])
      = convert_AnyOrder (convert_AnyOrder_single convert_string)
          [convert_AnyOrder_optional (convert (.integral .int))]
          convert_string [convert_optional (convert (.integral .int))] := by
  simp only [convert, convertAnyOrderPack, convertPack]

/-- C14, counterexample: `AnyOrder<string, std::optional<int>>` on `["x"]` does not yield
`("x", absent)`: the absent `std::optional<int>` throws `"nopt"` (on `[]` as on `["x"]`),
rotations follow, and what is returned in the end is `("", absent)`. -/
theorem convert_AnyOrder_string_optional_int_x :
    (convert (.AnyOrder (.optional (.integral .int)) [])).c [] = .cstr "nopt"
      ∧ (convert (.AnyOrder .string [.optional (.integral .int)])).c ["x"]
        = .ok (.AnyOrder [.str "", .optional none], []) := by
  have h : stoi "x" = none := by decide
  constructor <;>
    simp [convert, convertAnyOrderPack, convert_AnyOrder, AnyOrder.c_limited,
      convert_AnyOrder_optional, convert_AnyOrder_single, convert_optional, convert_type,
      convert_string, h, EXCEPT, AnyOrder.initWrapped, Val.wrapped, back_cycle]

/-- C14 as amended: absence is not terminal in `AnyOrder`. For every `X` and every token
list `ts` on which `X` does not convert (the empty list, or a list on which `X` throws a
`TraceException`), `convert<AnyOrder<std::optional<X>>>::c(ts)` consumes nothing and
throws `"nopt"`; and when `std::optional<X>` is the lone remaining type after a head `F`
that parsed, leaving `ts`, the `"nopt"` triggers a further rotation as long as
`itrs <= 2`: the result is that of `c_limited` on the rotated pack, relabelled by
`back_cycle`. -/
theorem convert_AnyOrder_optional_absent (X : Converter) (ts : strings)
    (h : ts = [] ∨ ∃ e, X.c ts = .trace e) :
    (convert_AnyOrder_optional X).c ts = .cstr "nopt"
      ∧ ∀ (F : Converter) (vec : strings) (itrs : Nat) (v : Val),
          F.c vec = .ok (v, ts) → itrs ≤ 2 →
          AnyOrder.c_limited F [convert_AnyOrder_optional X] vec itrs = (do
            let cycle ← AnyOrder.c_limited (convert_AnyOrder_optional X) [F] vec (itrs + 1)
            pure (.AnyOrder (back_cycle cycle.1.wrapped), cycle.2)) := by
  have h1 : (convert_AnyOrder_optional X).c ts = .cstr "nopt" := by
    rcases h with rfl | ⟨e, he⟩
    · simp [convert_AnyOrder_optional, convert_optional]
    · by_cases hts : ts = []
      · subst hts
        simp [convert_AnyOrder_optional, convert_optional]
      · simp [convert_AnyOrder_optional, convert_optional, hts, he]
  refine ⟨h1, ?_⟩
  intro F vec itrs v hF hle
  have ha : AnyOrder.attempt F (convert_AnyOrder_optional X) [] vec = .cstr "nopt" := by
    simp [AnyOrder.attempt, hF, AnyOrder.c_limited, h1]
  exact c_limited_of_attempt_cstr ha (by simpa using hle)

/-- C14 as amended, at concrete inputs: `std::optional<int>` is absent on `["x"]`; in
`AnyOrder<string, std::optional<int>>` on `["7", "x"]` the string takes `"7"`, the lone
remaining `std::optional<int>` is absent on `["x"]`, and the rotation that follows
returns `("x", 7)`. -/
theorem convert_AnyOrder_optional_absent_witness :
    (convert_AnyOrder_optional (convert (.integral .int))).c ["x"] = .cstr "nopt"
      ∧ (convert (.AnyOrder .string [.optional (.integral .int)])).c ["7", "x"]
        = .ok (.AnyOrder [.str "x", .optional (some (.int 7))], []) := by
  have hx : (convert (.integral .int)).c ["x"]
      = .trace ⟨["Could not convert \"x\" to a int"]⟩ := rfl
  have h := convert_AnyOrder_optional_absent (convert (.integral .int)) ["x"] (Or.inr ⟨_, hx⟩)
  refine ⟨h.1, ?_⟩
  have h7 : stoi "7" = some 7 := by decide
  rw [convert_AnyOrder_pack_string_optional_int]
  simp only [convert_AnyOrder]
  rw [h.2 (convert_AnyOrder_single convert_string) ["7", "x"] 0 (.AnyOrder [.str "7"])
    (by simp [convert_AnyOrder_single, convert_string]) (by omega)]
  simp [AnyOrder.c_limited, convert_AnyOrder_optional, convert_AnyOrder_single,
    convert_optional, convert, convert_type, convert_string, h7, Val.wrapped, back_cycle,
    IntTy.ofInt]

/-! ## C15: relabelling to the declared order -/

/-- Positions are restored by `back_cycle`: it moves the last component of a tuple to the
front, so that it undoes one rotation to the left of a tuple with at least one
component; and for every pack `F, R...` and every token list, when the chain of calls of
`c_limited` ends in an attempt that returns after `k` rotations, that attempt was made
on the pack rotated `k` times to the left, and `c_limited` returns its remaining tokens
and a tuple `rs` that, rotated `k` times to the left, is the tuple `ws` of the attempt.
Nothing is said here of where the components of `ws` come from. -/
theorem c_limited_relabels :
    (∀ (rs : List Val) (f : Val), back_cycle (rs ++ [f]) = f :: rs)
      ∧ (∀ t : List Val, t ≠ [] → back_cycle (t.rotate 1) = t)
      ∧ (∀ (F : Converter) (R : List Converter) (vec : strings) (itrs k : Nat)
          (pack : List Converter) (ws : List Val) (rem : strings),
          AnyOrder.found F R vec itrs = some (k, pack, ws, rem) →
          pack = (F :: R).rotate k
            ∧ ∃ rs, AnyOrder.c_limited F R vec itrs = .ok (.AnyOrder rs, rem)
              ∧ rs.rotate k = ws) := by
  refine ⟨back_cycle_concat, ?_, ?_⟩
  · intro t ht
    cases t with
    | nil => exact absurd rfl ht
    | cons f rs => rw [List.rotate_cons_succ, List.rotate_zero, back_cycle_concat]
  · intro F R vec itrs k pack ws rem h
    obtain ⟨hp, hc⟩ := found_spec F R vec itrs k pack ws rem h
    exact ⟨hp, _, hc, back_cycle_iterate_rotate k ws⟩

/-- For `AnyOrder<std::optional<int>, string>` on `["tag", "7"]` the attempt that returns
is made after one rotation, on the pack `(string, std::optional<int>)`, with the values
`("tag", 7)`; the result is `(7, "tag")` with nothing remaining. -/
theorem c_limited_relabels_witness :
    (∃ pack, AnyOrder.found (convert_AnyOrder_optional (convert (.integral .int)))
        [convert_AnyOrder_single convert_string] ["tag", "7"] 0
        = some (1, pack, [.str "tag", .optional (some (.int 7))], []))
      ∧ (convert (.AnyOrder (.optional (.integral .int)) [.string])).c ["tag", "7"]
        = .ok (.AnyOrder [.optional (some (.int 7)), .str "tag"], []) := by
  have h1 : stoi "tag" = none := by decide
  have h2 : stoi "7" = some 7 := by decide
  have hf : AnyOrder.found (convert_AnyOrder_optional (convert (.integral .int)))
      [convert_AnyOrder_single convert_string] ["tag", "7"] 0
      = some (1, [convert_AnyOrder_single convert_string,
          convert_AnyOrder_optional (convert (.integral .int))],
        [.str "tag", .optional (some (.int 7))], []) := by
    simp [AnyOrder.found, AnyOrder.attempt, AnyOrder.c_limited, convert_AnyOrder_optional,
      convert_AnyOrder_single, convert_optional, convert, convert_type, convert_string,
      h1, h2, EXCEPT, Val.wrapped, IntTy.ofInt]
  refine ⟨⟨_, hf⟩, ?_⟩
  obtain ⟨-, rs, hc, hr⟩ := c_limited_relabels.2.2 _ _ _ _ _ _ _ _ hf
  have hlen : rs.length = 2 := by rw [← List.length_rotate rs 1, hr]; rfl
  have hrs : rs = [.optional (some (.int 7)), .str "tag"] := by
    match rs, hlen, hr with
    | [x, y], _, hr =>
      simp only [List.rotate_cons_succ, List.rotate_zero, List.nil_append, List.cons_append,
        List.cons.injEq, and_true] at hr
      rw [hr.1, hr.2]
  rw [hrs] at hc
  simpa only [convert, convertAnyOrderPack, convert_AnyOrder] using hc

theorem convert_AnyOrder_single_c_eq_parse (X : Converter) (ts : strings) :
    (convert_AnyOrder (convert_AnyOrder_single X) [] X []).c ts = (do
      let p ← _parser_.parse X [] ts
      pure (.AnyOrder p.1, p.2)) := by
  simp only [convert_AnyOrder, AnyOrder.c_limited, convert_AnyOrder_single, _parser_.parse]
  cases X.c ts <;> rfl

theorem convert_AnyOrder_of_not_optional (T : Ty) (h : ∀ X, T ≠ .optional X) :
    convert (.AnyOrder T [])
      = convert_AnyOrder (convert_AnyOrder_single (convert T)) [] (convert T) [] := by
  cases T with
  | optional X => exact absurd rfl (h X)
  | _ => simp only [convert, convertAnyOrderPack, convertPack]

/-- C16, counterexample: on `["abc"]` the sequence parser for the one-type sequence
`(std::optional<int>)` returns "absent" and the tokens, while
`AnyOrder<std::optional<int>>` throws `"nopt"`. -/
theorem convert_AnyOrder_optional_differs :
    Ty.parseSequence (.optional (.integral .int)) [] ["abc"]
        = .ok ([.optional none], ["abc"])
      ∧ (convert (.AnyOrder (.optional (.integral .int)) [])).c ["abc"] = .cstr "nopt" := by
  have h : stoi "abc" = none := by decide
  refine ⟨rfl, ?_⟩
  simp [convert, convertAnyOrderPack, convert_AnyOrder, AnyOrder.c_limited,
    convert_AnyOrder_optional, convert_optional, convert_type, h, EXCEPT]

/-- C16 as amended: for every built-in type `T` that is not a `std::optional` and every
token list, `AnyOrder<T>` behaves exactly like the sequence parser for the one-type
sequence `(T)`: the same failure, or the same single value and the same remaining list.
For `T = std::optional<X>` the two agree when the sequence parser returns a present
value or fails, and where the sequence parser returns "absent", `AnyOrder<T>` throws
`"nopt"`. -/
theorem convert_AnyOrder_one_type (T : Ty) (ts : strings) :
    ((∀ X, T ≠ .optional X) →
        (convert (.AnyOrder T [])).c ts = (do
          let p ← Ty.parseSequence T [] ts
          pure (.AnyOrder p.1, p.2)))
      ∧ (∀ X, T = .optional X →
          (∀ v rem, Ty.parseSequence T [] ts = .ok ([.optional (some v)], rem) →
              (convert (.AnyOrder T [])).c ts = .ok (.AnyOrder [.optional (some v)], rem))
            ∧ (∀ rem, Ty.parseSequence T [] ts = .ok ([.optional none], rem) →
              (convert (.AnyOrder T [])).c ts = .cstr "nopt")
            ∧ ((Ty.parseSequence T [] ts).returns = false →
              (convert (.AnyOrder T [])).c ts = (do
                let p ← Ty.parseSequence T [] ts
                pure (.AnyOrder p.1, p.2)))) := by
  constructor
  · intro h
    rw [convert_AnyOrder_of_not_optional T h, convert_AnyOrder_single_c_eq_parse]
    rfl
  · rintro X rfl
    have key : (convert (.AnyOrder (.optional X) [])).c ts = (do
        let maybe ← (convert_optional (convert X)).c ts
        match maybe.1 with
        | .optional (some f_) => pure (.AnyOrder [.optional (some f_)], maybe.2)
        | _ => .cstr "nopt") := by
      simp only [convert, convertAnyOrderPack, convert_AnyOrder, AnyOrder.c_limited,
        convert_AnyOrder_optional]
    have hp : Ty.parseSequence (.optional X) [] ts = (do
        let c ← (convert_optional (convert X)).c ts
        pure ([c.1], c.2)) := by
      simp only [Ty.parseSequence, convert, convertPack, _parser_.parse]
    rw [key, hp]
    cases hc : (convert_optional (convert X)).c ts with
    | ok c =>
      obtain ⟨c1, c2⟩ := c
      refine ⟨?_, ?_, ?_⟩
      · intro v rem h
        simp only [Outcome.ok_bind, Outcome.pure_eq_ok, Outcome.ok.injEq, Prod.mk.injEq,
          List.cons.injEq, and_true] at h
        obtain ⟨rfl, rfl⟩ := h
        rfl
      · intro rem h
        simp only [Outcome.ok_bind, Outcome.pure_eq_ok, Outcome.ok.injEq, Prod.mk.injEq,
          List.cons.injEq, and_true] at h
        obtain ⟨rfl, rfl⟩ := h
        rfl
      · intro h
        simp [Outcome.returns] at h
    | trace e => simp
    | cstr s => simp
    | undefined => simp

/-- C16 as amended, at concrete inputs: `AnyOrder<int>` and the sequence `(int)` agree on
`["5", "x"]` and on `["abc"]`; `AnyOrder<std::optional<int>>` and the sequence
`(std::optional<int>)` agree on `["5", "x"]`. -/
theorem convert_AnyOrder_one_type_witness :
    (convert (.AnyOrder (.integral .int) [])).c ["5", "x"] = .ok (.AnyOrder [.int 5], ["x"])
      ∧ (convert (.AnyOrder (.integral .int) [])).c ["abc"]
        = .trace ⟨["Could not convert \"abc\" to a int"]⟩
      ∧ (convert (.AnyOrder (.optional (.integral .int)) [])).c ["5", "x"]
        = .ok (.AnyOrder [.optional (some (.int 5))], ["x"]) :=
  ⟨(convert_AnyOrder_one_type (.integral .int) ["5", "x"]).1 (by simp),
    (convert_AnyOrder_one_type (.integral .int) ["abc"]).1 (by simp),
    ((convert_AnyOrder_one_type (.optional (.integral .int)) ["5", "x"]).2 _ rfl).1 _ _ rfl⟩

/-! ## C17: the number of attempts -/

/-- C17, at the failing input: `AnyOrder<std::optional<int>, std::optional<int>>` has
`n = 2` declared types; on `["abc"]` the chain of calls of `c_limited` started by `c`
makes 4 parse attempts, one more than `n + 1`: the guard `itrs <= elements` lets
`itrs = 0, ..., n` rotate. The search always ends: for every pack of `n >= 2` types
(`F`, `F'` and `R`) and every token list there are at most `n + 2` attempts. -/
theorem c_limited_attempts :
    convert (.AnyOrder (.optional (.integral .int)) [.optional (.integral .int)])
        = convert_AnyOrder (convert_AnyOrder_optional (convert (.integral .int)))
            [convert_AnyOrder_optional (convert (.integral .int))]
            (convert_optional (convert (.integral .int)))
            [convert_optional (convert (.integral .int))]
      ∧ AnyOrder.attempts (convert_AnyOrder_optional (convert (.integral .int)))
          [convert_AnyOrder_optional (convert (.integral .int))] ["abc"] 0 = 4
      ∧ (∀ (F F' : Converter) (R : List Converter) (vec : strings),
          AnyOrder.attempts F (F' :: R) vec 0 ≤ (F :: F' :: R).length + 2) := by
  have h : stoi "abc" = none := by decide
  refine ⟨by simp only [convert, convertAnyOrderPack, convertPack], ?_, ?_⟩
  · simp [AnyOrder.attempts, AnyOrder.attempt, AnyOrder.c_limited, convert_AnyOrder_optional,
      convert_optional, convert, convert_type, h, EXCEPT]
  · intro F F' R vec
    have := attempts_le F (F' :: R) vec 0
    simp only [List.length_cons] at this ⊢
    omega

/-! ## C18: the range of the integral types -/

/-- C18, at the failing inputs: `"70000"` and `"-1"` are outside the range of `uint16_t`
and convert to it all the same, reduced modulo `2^16` (4464 and 65535); `"4294967295"`
is inside the range of `uint32_t` and `"9999999999"` inside that of `uint64_t`, and both
are rejected. The number is parsed as an `int` by `std::stoi` and then converted to the
type. -/
theorem convert_type_range :
    (convert (.integral .uint16_t)).c ["70000"] = .ok (.int 4464, [])
      ∧ (convert (.integral .uint16_t)).c ["-1"] = .ok (.int 65535, [])
      ∧ ((convert (.integral .uint32_t)).c ["4294967295"]).returns = false
      ∧ ((convert (.integral .uint64_t)).c ["9999999999"]).returns = false :=
  ⟨rfl, rfl, rfl, rfl⟩

/-! ## C19: the help text -/

theorem intercalate_go_cons (acc sep a : String) (as : List String) :
    String.intercalate.go acc sep (a :: as) = acc ++ sep ++ String.intercalate.go a sep as := by
  induction as generalizing acc a with
  | nil => simp [String.intercalate.go]
  | cons b bs ih =>
    rw [String.intercalate.go, ih (acc ++ sep ++ a) b, ih a b]
    simp only [String.append_assoc]

theorem NameTypes_eq_intercalate (F : Converter) (R : List Converter) :
    ShowType.NameTypes F R = ", ".intercalate ((F :: R).map Converter.Stringify) := by
  induction R generalizing F with
  | nil => simp [ShowType.NameTypes, String.intercalate, String.intercalate.go]
  | cons F' R ih =>
    rw [ShowType.NameTypes, ih F']
    simp only [List.map_cons, String.intercalate, intercalate_go_cons]

theorem foldl_append_eq (acc : String) (l : List String) :
    List.foldl (fun r s => r ++ s) acc l = acc ++ String.join l := by
  induction l generalizing acc with
  | nil => simp [String.join]
  | cons a l ih =>
    rw [List.foldl_cons, ih (acc ++ a)]
    have h : String.join (a :: l) = a ++ String.join l := by
      rw [String.join, List.foldl_cons, ih ("" ++ a), String.empty_append]
    rw [h, String.append_assoc]

theorem join_cons (a : String) (l : List String) :
    String.join (a :: l) = a ++ String.join l := by
  rw [String.join, List.foldl_cons, foldl_append_eq]
  simp

theorem DisplayHelp_eq_helpText (A : ArgClass) (cout : String) :
    A.DisplayHelp cout = cout ++ A.helpText := by
  simp only [ArgClass.DisplayHelp, Argument_.DisplayHelp, ArgClass.helpText,
    NameTypes_eq_intercalate, String.append_assoc]

theorem PrintTypeHelp_eq (T : ArgClass) (Ts : List ArgClass) (cout : String) :
    PrintHelp.PrintTypeHelp T Ts cout
      = cout ++ String.join ((T :: Ts).map ArgClass.helpText) := by
  induction Ts generalizing T cout with
  | nil => simp [PrintHelp.PrintTypeHelp, DisplayHelp_eq_helpText, join_cons, String.join]
  | cons T' Ts ih =>
    rw [PrintHelp.PrintTypeHelp, ih, DisplayHelp_eq_helpText,
      show List.map ArgClass.helpText (T :: T' :: Ts)
        = T.helpText :: List.map ArgClass.helpText (T' :: Ts) from rfl,
      join_cons T.helpText, String.append_assoc]

theorem convertPack_eq_map (R : List Ty) : convertPack R = R.map convert := by
  induction R with
  | nil => rfl
  | cons T Ts ih => rw [convertPack, ih, List.map_cons]

theorem NameTypes_convert (F : Ty) (R : List Ty) :
    ShowType.NameTypes (convert F) (convertPack R)
      = ", ".intercalate ((F :: R).map fun X => (convert X).Stringify) := by
  rw [NameTypes_eq_intercalate, convertPack_eq_map, ← List.map_cons, List.map_map]
  rfl

theorem Stringify_AnyOrder_pack (F F' : Ty) (R : List Ty) :
    (convert (.AnyOrder F (F' :: R))).Stringify
      = ", ".intercalate ((F :: F' :: R).map fun X => (convert X).Stringify) := by
  rw [← NameTypes_convert]
  cases F <;> simp only [convert, convert_AnyOrder, convertPack]

theorem Stringify_AnyOrder_one (F : Ty) :
    (convert (.AnyOrder F [])).Stringify =
      match F with
      | .optional X => (convert X).Stringify
      | F => (convert F).Stringify := by
  cases F <;>
    simp only [convert, convert_AnyOrder, convertPack, convert_AnyOrder_single,
      convert_AnyOrder_optional]

/-- C19: for every non-empty list of declared value types the rendered type list
`ShowType::NameTypes` is the display names of the types in declared order joined by
`", "`; for every list of candidate groups `DisplayHelp` appends to the output, for each
group in declared order, the line `<full>, <short> <type list>`, the description line and
one blank line; and a second invocation appends the same text again. The display names
are those of `Stringify`: the spelling of an integral type, `string`, `path`, the empty
name of `nullptr_t`, the bracketed name of the type of an optional, the joined names of
the types of a tuple or of an `AnyOrder` of several types, the name of the type (without
the brackets of an optional) for an `AnyOrder` of one type, and the long flag of a nested
group. -/
theorem DisplayHelp_text (T : ArgClass) (Ts : List ArgClass) (cout : String) :
    (∀ (F : Converter) (R : List Converter),
        ShowType.NameTypes F R = ", ".intercalate ((F :: R).map Converter.Stringify))
      ∧ DisplayHelp T Ts cout = cout ++ String.join ((T :: Ts).map ArgClass.helpText)
      ∧ DisplayHelp T Ts (DisplayHelp T Ts cout)
        = cout ++ String.join ((T :: Ts).map ArgClass.helpText)
            ++ String.join ((T :: Ts).map ArgClass.helpText)
      ∧ (∀ (F : Ty) (R : List Ty),
          ShowType.NameTypes (convert F) (convertPack R)
            = ", ".intercalate ((F :: R).map fun X => (convert X).Stringify))
      ∧ (∀ TYPE : IntTy, (convert (.integral TYPE)).Stringify = TYPE.name)
      ∧ (convert .string).Stringify = "string"
      ∧ (convert .path).Stringify = "path"
      ∧ (convert .nullptr_t).Stringify = ""
      ∧ (∀ X : Ty, (convert (.optional X)).Stringify = "[" ++ (convert X).Stringify ++ "]")
      ∧ (∀ (F : Ty) (R : List Ty), (convert (.tuple F R)).Stringify
          = ", ".intercalate ((F :: R).map fun X => (convert X).Stringify))
      ∧ (∀ (F F' : Ty) (R : List Ty), (convert (.AnyOrder F (F' :: R))).Stringify
          = ", ".intercalate ((F :: F' :: R).map fun X => (convert X).Stringify))
      ∧ (∀ F : Ty, (convert (.AnyOrder F [])).Stringify =
          match F with
          | .optional X => (convert X).Stringify
          | F => (convert F).Stringify)
      ∧ (∀ (G : Flag) (P : Ty) (Ps : List Ty), (convert (.Arg G P Ps)).Stringify = G.full) := by
  refine ⟨NameTypes_eq_intercalate, PrintTypeHelp_eq T Ts cout, ?_, NameTypes_convert, ?_, ?_,
    ?_, ?_, ?_, ?_, Stringify_AnyOrder_pack, Stringify_AnyOrder_one, ?_⟩
  · simp only [DisplayHelp, PrintTypeHelp_eq]
  · intro TYPE
    simp only [convert, convert_type]
  · simp only [convert, convert_string]
  · simp only [convert, convert_path]
  · simp only [convert, convert_nullptr_t]
  · intro X
    simp only [convert, convert_optional]
  · intro F R
    rw [← NameTypes_convert]
    simp only [convert, convert_tuple]
  · intro G P Ps
    simp only [convert, convert_default]

/-- C19 at concrete declarations: the help text of five groups whose value types cover
every kind of display name; `AnyOrder<std::optional<int>, std::string>` is listed as
`[int], string` and `AnyOrder<std::optional<int>>` as `int`. -/
theorem DisplayHelp_text_witness :
    DisplayHelp groupA [xIntString, xAnyOrderOptionalInt, yAnyOrder, zMixed] ""
      = "--a, -a string\nfirst\n\n"
        ++ "--x, -x int, string\nan int and a string\n\n"
        ++ "--x, -x int\nan optional int\n\n"
        ++ "--y, -y [int], string\nan int and a string in any order\n\n"
        ++ "--z, -z path, [uint16_t], long, uint64_t, --a, uint32_t, \none of each\n\n" := by
  rw [(DisplayHelp_text groupA [xIntString, xAnyOrderOptionalInt, yAnyOrder, zMixed] "").2.1]
  rfl

/-! ## C20: no backtracking past the first candidate that parses -/

theorem GroupParse_parse_of_split (T : ArgClass) (Ts pre post : List ArgClass)
    (A : ArgClass) (args : strings) (g : Argument)
    (hsplit : T :: Ts = pre ++ A :: post)
    (hpre : ∀ B ∈ pre, (B.parse args).throws = true)
    (hA : A.parse args = .ok g) :
    GroupParse.parse T Ts args = .ok g := by
  induction pre generalizing T Ts with
  | nil =>
    simp only [List.nil_append, List.cons.injEq] at hsplit
    obtain ⟨rfl, rfl⟩ := hsplit
    exact GroupParse_parse_of_returns T Ts args g hA
  | cons B pre ih =>
    simp only [List.cons_append, List.cons.injEq] at hsplit
    obtain ⟨rfl, rfl⟩ := hsplit
    cases hp : pre ++ A :: post with
    | nil => simp at hp
    | cons T' Ts' =>
      rw [GroupParse_parse_of_throws T T' Ts' args (hpre T (List.mem_cons_self _ _))]
      exact ih T' Ts' hp.symm (fun B hB => hpre B (List.mem_cons_of_mem _ hB))

/-- C20: for every candidate list and every argument vector, when the candidate `A` is
the first whose flag matcher returns (the candidates before it throw), the outcome of
`ParseArgs` is fixed by the object `g` of `A` alone: `g` itself when `g.args_` is empty,
and the error naming the first leftover token otherwise, whatever the candidates `post`
declared after `A` would do with the tokens. -/
theorem ParseArgs_first_candidate (T : ArgClass) (Ts pre post : List ArgClass)
    (A : ArgClass) (argv0 : String) (arguments : strings) (g : Argument)
    (hsplit : T :: Ts = pre ++ A :: post)
    (hpre : ∀ B ∈ pre, (B.parse arguments).throws = true)
    (hA : A.parse arguments = .ok g) :
    ParseArgs T Ts (argv0 :: arguments) =
      match g.args_ with
      | [] => .ok g
      | t :: _ => .trace ⟨["Argument " ++ t ++ " not parsed."]⟩ := by
  have h := GroupParse_parse_of_split T Ts pre post A arguments g hsplit hpre hA
  simp only [ParseArgs, h, Outcome.ok_bind, Argument.EnsureNoRemainingArguments]
  cases g.args_ <;> rfl

/-- C20 at the input of the claim: with `--x <string>` declared before
`--x <string> <string>`, the tokens `["--x", "a", "b"]` are rejected because of the
leftover `"b"`, although the second candidate parses them with nothing left over. -/
theorem ParseArgs_first_candidate_witness :
    xTwoStrings.parse ["--x", "a", "b"] = .ok ⟨xTwoStrings.T, [.str "a", .str "b"], []⟩
      ∧ ParseArgs xString [xTwoStrings] ["prog", "--x", "a", "b"]
        = .trace ⟨["Argument b not parsed."]⟩ :=
  ⟨rfl, ParseArgs_first_candidate xString [xTwoStrings] [] [xTwoStrings] xString "prog"
    ["--x", "a", "b"] ⟨xString.T, [.str "a"], ["b"]⟩ rfl (by simp) rfl⟩


end argparse
